import Mathlib

/-!
Shallow embedding of the operations core of
`src/water_price_app_extended.py` (an Australian water-price comparison
app with a freshness / validation / incident / scheduler workflow on top
of a static tariff table).

Modelling conventions:
* Python floats are embedded as exact rationals `ℚ`; every comparison the
  program performs on them (equality with zero, sign tests, threshold
  tests) is exact on the decimal literals of the dataset, so nothing in
  the verified claims depends on binary rounding.
* ISO timestamps are embedded as `Int` minutes; `datetime.now()` becomes
  an explicit `now : Int` argument of each state-mutating entry point
  (one reading of the clock per call).  `timedelta.days` is floor
  division by 1440 (`Int.fdiv`), matching Python's floor semantics.
* The JSON ops-state document is the structure `OpsState`; Python dicts
  become insertion-ordered association lists with `alookup` / `setA`
  mirroring `d.get` / `d[k] = v`.
* Heterogeneous JSON values (incident details, issue context, run-log
  details) are the inductive `JVal`.
-/

namespace WaterOps

/-- A JSON-ish value as stored in `details` / `context` maps. -/
inductive JVal where
  | num (q : ℚ)
  | str (s : String)
  | nil
  | pair (a b : JVal)
  | strs (l : List String)
deriving DecidableEq, Repr

/-- Association list standing for a Python dict (insertion ordered). -/
abbrev AList (α : Type) := List (String × α)

/-- `d.get(k)`: first binding of `k`, if any. -/
def alookup {α : Type} : AList α → String → Option α
  | [], _ => none
  | (k, v) :: rest, key => if k = key then some v else alookup rest key

/-- `d[k] = v`: overwrite in place if present (keeping position), else append. -/
def setA {α : Type} : AList α → String → α → AList α
  | [], k, v => [(k, v)]
  | (k', v') :: rest, k, v =>
      if k' = k then (k, v) :: rest else (k', v') :: setA rest k v

/-- `{**a, **b}`: keys of `a` in order (values overridden by `b` where both
have the key), then the keys only `b` has, in `b`'s order. -/
def mergeA {α : Type} (a b : AList α) : AList α :=
  a.map (fun p => match alookup b p.1 with
    | some v => (p.1, v)
    | none => p)
  ++ b.filter (fun q => (alookup a q.1).isNone)

/-- `Tariff` dataclass: fixed charges, one or two usage rates, display data. -/
structure Tariff where
  network_charge : ℚ
  sewerage_charge : ℚ
  usage_charges : ℚ × Option ℚ
  name : String
  region : String
  notes : String
deriving DecidableEq, Repr

/-- `ValidationIssue` dataclass. -/
structure ValidationIssue where
  provider_key : String
  code : String
  message : String
  severity : String
  context : AList JVal
deriving DecidableEq, Repr

/-- `ProviderHealth` dataclass (timestamps in minutes). -/
structure ProviderHealth where
  provider_key : String
  last_checked : Option Int := none
  last_success : Option Int := none
  failure_count : Nat := 0
  status : String := "UNKNOWN"
  notes : List String := []
deriving DecidableEq, Repr

/-- `Incident` dataclass. -/
structure Incident where
  id : Int
  provider_key : String
  code : String
  status : String
  summary : String
  details : AList JVal
  opened_at : Int
  updated_at : Int
deriving DecidableEq, Repr

/-- `RunLogEntry` dataclass. -/
structure RunLogEntry where
  ts : Int
  event : String
  details : AList JVal
deriving DecidableEq, Repr

/-! ## Config / constants (module-level, env defaults) -/

def BLOCK_THRESHOLD_KL : ℚ := 160.066

def PROVIDER_THRESHOLDS : AList ℚ :=
  [("ICON", 200), ("URBAN_UTILITIES", 300), ("SAWATER", 140), ("WACORP", 150)]

def FRESHNESS_SLA_DAYS : Int := 30

def NONCOMMUNICATION_THRESHOLD : Nat := 3

def DRIFT_BENCHMARK_KL : ℚ := 160.0

def DRIFT_ALERT_PCT : ℚ := 15.0

def META_FY : String := "2025-26"

def META_LAST_UPDATED : String := "2025-08-14"

/-! ## Static dataset of tariffs (`PROVIDERS`), in source (dict insertion) order -/

def PROVIDERS : AList Tariff :=
  [ ("SYDNEY",
     { network_charge := 16.90 * 4 + 22.23 * 4
       sewerage_charge := 155.89 * 4
       usage_charges := (2.67, none)
       name := "Sydney Water", region := "standard"
       notes := "Stormwater assumes single dwelling. Usage may change if storage <60%." }),
    ("YVW",
     { network_charge := 312.98, sewerage_charge := 607.57
       usage_charges := (3.1702, none)
       name := "Yarra Valley Water", region := "standard"
       notes := "Single usage rate; excludes trade waste/recycled water specifics." }),
    ("GWW_CENTRAL",
     { network_charge := 224.26, sewerage_charge := 298.00
       usage_charges := (3.6413, some 4.1629)
       name := "Greater Western Water", region := "central"
       notes := "Two-step tariff; first block ~440 L/day (~160 kL/yr)." }),
    ("GWW_WESTERN",
     { network_charge := 224.23, sewerage_charge := 525.83
       usage_charges := (2.6453, some 3.4059)
       name := "Greater Western Water", region := "western"
       notes := "Two-step tariff; first block ~440 L/day (~160 kL/yr)." }),
    ("SEW",
     { network_charge := 87.90, sewerage_charge := 401.65
       usage_charges := (3.0084, some 3.8383)
       name := "South East Water", region := "standard"
       notes := "Two-step water tariff; some combined charges slightly higher." }),
    ("TASWATER",
     { network_charge := 407.33, sewerage_charge := 469.01
       usage_charges := (1.2612, none)
       name := "TasWater", region := "state-wide"
       notes := "Usage for drinking-quality water." }),
    ("WACORP",
     { network_charge := 296.89, sewerage_charge := 0.0
       usage_charges := (2.052, some 2.734)
       name := "Water Corporation WA", region := "Perth metropolitan"
       notes := "Tiered usage: 0-150 kL $2.052/kL; 151-500 $2.734/kL; >500 $5.115 (not modelled)." }),
    ("ICON",
     { network_charge := 243.47, sewerage_charge := 617.21
       usage_charges := (2.78, some 5.58)
       name := "Icon Water", region := "ACT"
       notes := "Block threshold 50,000 L/quarter (~200 kL/yr)." }),
    ("REDLAND",
     { network_charge := 0.0, sewerage_charge := 0.0
       usage_charges := (4.337, none)
       name := "Redland City Council", region := "Redlands/Straddie"
       notes := "Combined water price (bulk + local); fixed charges embedded." }),
    ("URBAN_UTILITIES",
     { network_charge := 0.694 * 365, sewerage_charge := 1.961 * 365
       usage_charges := (0.981 + 3.517, some (2.038 + 3.517))
       name := "Urban Utilities", region := "Brisbane/Ipswich region"
       notes := "Tiered usage plus state bulk water included. Tier 1 up to ~822 L/day (~300 kL/yr)." }),
    ("SAWATER",
     { network_charge := 329.20, sewerage_charge := 376.00
       usage_charges := (2.357, some 3.365)
       name := "SA Water", region := "Metropolitan Adelaide"
       notes := "Residential tiers: ~0-140 kL $2.357; ~140-520 $3.365; >520 $3.646 (omitted). Sewerage simplified." }),
    ("POWER_WATER_NT",
     { network_charge := 0.9457 * 365, sewerage_charge := 953.89
       usage_charges := (2.2647, none)
       name := "Power and Water Corporation (NT)", region := "Darwin urban"
       notes := "Assumes <=25 mm meter for fixed water. Flat domestic water $/kL." }),
    ("UNITYWATER",
     { network_charge := 0.0, sewerage_charge := 0.0, usage_charges := (0.0, none)
       name := "Unitywater", region := "Sunshine Coast/Moreton Bay"
       notes := "TODO: add 2025-26 Unitywater tariffs." }),
    ("GOLD_COAST_WATER",
     { network_charge := 0.0, sewerage_charge := 0.0, usage_charges := (0.0, none)
       name := "Gold Coast Water", region := "City of Gold Coast"
       notes := "TODO: add 2025-26 Gold Coast tariffs." }),
    ("LOGAN_WATER",
     { network_charge := 0.0, sewerage_charge := 0.0, usage_charges := (0.0, none)
       name := "Logan Water", region := "Logan City"
       notes := "TODO: add 2025-26 Logan tariffs." }),
    ("HUNTER",
     { network_charge := 0.0, sewerage_charge := 0.0, usage_charges := (0.0, none)
       name := "Hunter Water", region := "Newcastle/Lake Macquarie"
       notes := "TODO: add 2025-26 Hunter Water tariffs." }),
    ("CENTRAL_COAST",
     { network_charge := 0.0, sewerage_charge := 0.0, usage_charges := (0.0, none)
       name := "Central Coast Council", region := "Gosford/Wyong"
       notes := "TODO: add 2025-26 Central Coast tariffs." }),
    ("BARWON",
     { network_charge := 0.0, sewerage_charge := 0.0, usage_charges := (0.0, none)
       name := "Barwon Water", region := "Geelong"
       notes := "TODO: add 2025-26 Barwon tariffs." }),
    ("CENTRAL_HIGHLANDS",
     { network_charge := 0.0, sewerage_charge := 0.0, usage_charges := (0.0, none)
       name := "Central Highlands Water", region := "Ballarat"
       notes := "TODO: add 2025-26 Central Highlands tariffs." }),
    ("COLIBAN",
     { network_charge := 0.0, sewerage_charge := 0.0, usage_charges := (0.0, none)
       name := "Coliban Water", region := "Bendigo"
       notes := "TODO: add 2025-26 Coliban tariffs." }),
    ("GOULBURN_VALLEY",
     { network_charge := 0.0, sewerage_charge := 0.0, usage_charges := (0.0, none)
       name := "Goulburn Valley Water", region := "Shepparton"
       notes := "TODO: add 2025-26 Goulburn Valley tariffs." }),
    ("NORTH_EAST",
     { network_charge := 0.0, sewerage_charge := 0.0, usage_charges := (0.0, none)
       name := "North East Water", region := "Wodonga"
       notes := "TODO: add 2025-26 North East tariffs." }),
    ("LOWER_MURRAY",
     { network_charge := 0.0, sewerage_charge := 0.0, usage_charges := (0.0, none)
       name := "Lower Murray Water", region := "Mildura"
       notes := "TODO: add 2025-26 Lower Murray tariffs." }),
    ("AQWEST",
     { network_charge := 0.0, sewerage_charge := 0.0, usage_charges := (0.0, none)
       name := "Aqwest", region := "Bunbury"
       notes := "TODO: add 2025-26 Aqwest tariffs." }),
    ("BUSSELTON_WATER",
     { network_charge := 0.0, sewerage_charge := 0.0, usage_charges := (0.0, none)
       name := "Busselton Water", region := "Busselton"
       notes := "TODO: add 2025-26 Busselton tariffs." }) ]

/-! ## Pure helpers: thresholds and the bill formula -/

/-- `provider_threshold(key)`: provider-specific block threshold or default. -/
def provider_threshold (key : String) : ℚ :=
  (alookup PROVIDER_THRESHOLDS key).getD BLOCK_THRESHOLD_KL

/-- `provider_threshold_keyless(tariff)`: always the global default. -/
def provider_threshold_keyless (_t : Tariff) : ℚ :=
  BLOCK_THRESHOLD_KL

/-- `calculate_bill(tariff, annual_kL, threshold_kL=None)`. -/
def calculate_bill (t : Tariff) (annual_kL : ℚ) (threshold_kL : Option ℚ) : ℚ :=
  let network_total := t.network_charge + t.sewerage_charge
  match t.usage_charges.2 with
  | none => network_total + annual_kL * t.usage_charges.1
  | some second_rate =>
      let thresh := match threshold_kL with
        | some th => th
        | none => provider_threshold_keyless t
      let base := min annual_kL thresh
      let excess := max (annual_kL - thresh) 0
      network_total + (base * t.usage_charges.1 + excess * second_rate)

/-! ## Validation & anomalies -/

/-- `_is_placeholder(t)`: all monetary fields exactly zero. -/
def is_placeholder (t : Tariff) : Bool :=
  t.network_charge = 0 ∧ t.sewerage_charge = 0 ∧ t.usage_charges.1 = 0 ∧
    (t.usage_charges.2 = none ∨ t.usage_charges.2 = some 0)

/-- `validate_provider(provider_key, t)`. -/
def validate_provider (provider_key : String) (t : Tariff) : List ValidationIssue :=
  if is_placeholder t then
    [{ provider_key := provider_key, code := "PLACEHOLDER"
       message := "Provider has placeholder (zero) tariffs.", severity := "ERROR"
       context := [] }]
  else
    let u1 := t.usage_charges.1
    let u2 := t.usage_charges.2
    (if t.network_charge < 0 ∨ t.sewerage_charge < 0 then
      [{ provider_key := provider_key, code := "NEGATIVE_FIXED"
         message := "Fixed charges should not be negative.", severity := "ERROR"
         context := [("network_charge", .num t.network_charge),
                     ("sewerage_charge", .num t.sewerage_charge)] }]
     else []) ++
    (if u1 < 0 ∨ (∃ v, u2 = some v ∧ v < 0) then
      [{ provider_key := provider_key, code := "NEGATIVE_RATE"
         message := "Usage rates should not be negative.", severity := "ERROR"
         context := [("usage_charges", .pair (.num u1)
                      (match u2 with | some v => .num v | none => .nil))] }]
     else []) ++
    (if ∃ v, u2 = some v ∧ v < u1 then
      [{ provider_key := provider_key, code := "MONOTONICITY"
         message := "Tier-2 rate is lower than Tier-1 (unusual).", severity := "WARN"
         context := [("tier1", .num u1),
                     ("tier2", match u2 with | some v => .num v | none => .nil)] }]
     else []) ++
    (if u1 > 20 ∨ (∃ v, u2 = some v ∧ v > 25) then
      [{ provider_key := provider_key, code := "OUTLIER_RATE"
         message := "Usage rate looks extremely high.", severity := "WARN"
         context := [("usage_charges", .pair (.num u1)
                      (match u2 with | some v => .num v | none => .nil))] }]
     else [])

/-- `_snapshot_for_drift(t)`: the minimal dict written into `snapshots`. -/
def snapshot_for_drift (t : Tariff) : AList JVal :=
  [("network_charge", .num t.network_charge),
   ("sewerage_charge", .num t.sewerage_charge),
   ("u1", .num t.usage_charges.1),
   ("u2", match t.usage_charges.2 with | some v => .num v | none => .nil),
   ("est160", .num (calculate_bill t DRIFT_BENCHMARK_KL none))]

/-- Reading a numeric entry of a snapshot dict; any non-number (missing key,
`None`, a string, ...) gives `none` — in the source such a value either fails
the `est_prev and est_prev > 0` guard or raises inside the `try`, both of
which end in `return None`. -/
def getNum (m : AList JVal) (k : String) : Option ℚ :=
  match alookup m k with
  | some (.num q) => some q
  | _ => none

/-- The WARN DRIFT issue `_compare_drift` emits, with `prev`, `cur` and the
percentage change in its context. -/
def drift_issue (est_prev est_cur : ℚ) : ValidationIssue :=
  { provider_key := ""
    code := "DRIFT"
    message := "Estimated annual bill changed at the benchmark usage."
    severity := "WARN"
    context := [("prev", .num est_prev), ("cur", .num est_cur),
                ("pct", .num ((est_cur - est_prev) / est_prev * 100))] }

/-- `_compare_drift(prev, cur)`; `prev` is `fy_snap.get(key)` so it is an
`Option`, and an empty dict is falsy like `None`. -/
def compare_drift (prev : Option (AList JVal)) (cur : AList JVal) :
    Option ValidationIssue :=
  match prev with
  | none => none
  | some p =>
      if p = [] then none
      else
        match getNum p "est160", getNum cur "est160" with
        | some est_prev, some est_cur =>
            if 0 < est_prev then
              if DRIFT_ALERT_PCT ≤ |(est_cur - est_prev) / est_prev * 100| then
                some (drift_issue est_prev est_cur)
              else none
            else none
        | _, _ => none

/-! ## Ops state (the persisted JSON document) and its primitive accessors -/

/-- The `scheduler` sub-document.  `history` entries are
`(ts, enabled, interval)` toggle records. -/
structure SchedulerState where
  enabled : Bool := false
  interval_minutes : Int := 1440
  last_run_at : Option Int := none
  next_run_due_at : Option Int := none
  history : List (Int × Bool × Int) := []
deriving DecidableEq, Repr

/-- The whole persisted ops-state document. -/
structure OpsState where
  scheduler : SchedulerState
  providers : AList ProviderHealth
  incidents : List Incident
  runs : List RunLogEntry
  snapshots : AList (AList (AList JVal))
  meta_fy : String
  meta_last_updated : String
deriving DecidableEq, Repr

/-- `_load_state()` on a missing file: the initialized document. -/
def initState : OpsState :=
  { scheduler := {}
    providers := []
    incidents := []
    runs := []
    snapshots := []
    meta_fy := META_FY
    meta_last_updated := META_LAST_UPDATED }

/-- `_ensure_health(state, key)`: the health record for `key`, creating a
default (UNKNOWN) one in the document when absent. -/
def ensure_health (s : OpsState) (key : String) : ProviderHealth × OpsState :=
  match alookup s.providers key with
  | some ph => (ph, s)
  | none =>
      let ph : ProviderHealth := { provider_key := key }
      (ph, { s with providers := s.providers ++ [(key, ph)] })

/-- `_put_health(state, ph)`. -/
def put_health (s : OpsState) (ph : ProviderHealth) : OpsState :=
  { s with providers := setA s.providers ph.provider_key ph }

/-- `_append_run(state, event, details)`: append then keep the last 500. -/
def append_run (s : OpsState) (now : Int) (event : String)
    (details : AList JVal) : OpsState :=
  let runs := s.runs ++ [{ ts := now, event := event, details := details }]
  { s with runs := if runs.length > 500 then runs.drop (runs.length - 500) else runs }

/-- `_next_due(dt_last, minutes)`; `not minutes` means `minutes == 0`, and a
missing `dt_last` bases the due time on the current time. -/
def next_due (dt_last : Option Int) (minutes : Int) (now : Int) : Option Int :=
  if minutes = 0 then none
  else some (dt_last.getD now + minutes)

/-- `timedelta.days` of `now - then` at minute resolution (floor division,
as in Python). -/
def ageDays (now tc : Int) : Int :=
  (now - tc).fdiv 1440

/-! ## Incidents -/

/-- `_new_incident_id(state)`. -/
def new_incident_id (incs : List Incident) : Int :=
  match (incs.map Incident.id).max? with
  | some m => m + 1
  | none => 1

/-- The `(provider, code, status open/acknowledged)` match of
`_find_open_incident`. -/
def isOpenMatch (inc : Incident) (provider_key code : String) : Bool :=
  inc.provider_key = provider_key ∧ inc.code = code ∧
    (inc.status = "open" ∨ inc.status = "acknowledged")

/-- `_find_open_incident(state, provider_key, code)`: first open or
acknowledged incident for the pair. -/
def find_open_incident : List Incident → String → String → Option Incident
  | [], _, _ => none
  | inc :: rest, pk, c =>
      if isOpenMatch inc pk c then some inc else find_open_incident rest pk c

/-- The in-place mutation `_open_or_update_incident` performs on the found
incident: merge the new details over the old and bump `updated_at`. -/
def merged_incident (inc : Incident) (details : AList JVal) (now : Int) : Incident :=
  { inc with details := mergeA inc.details details, updated_at := now }

/-- Rewrite the first open/acknowledged `(provider, code)` match with
`merged_incident`. -/
def update_open_incident : List Incident → String → String → AList JVal → Int →
    List Incident
  | [], _, _, _, _ => []
  | inc :: rest, pk, c, details, now =>
      if isOpenMatch inc pk c then
        merged_incident inc details now :: rest
      else inc :: update_open_incident rest pk c details now

/-- `_open_or_update_incident(state, provider_key, code, summary, details)`. -/
def open_or_update_incident (s : OpsState) (provider_key code summary : String)
    (details : AList JVal) (now : Int) : Int × OpsState :=
  match find_open_incident s.incidents provider_key code with
  | some inc =>
      let s1 := { s with
        incidents := update_open_incident s.incidents provider_key code details now }
      (inc.id, append_run s1 now "incident_update"
        [("id", .num inc.id), ("provider_key", .str provider_key), ("code", .str code)])
  | none =>
      let iid := new_incident_id s.incidents
      let s1 := { s with incidents := s.incidents ++
        [{ id := iid, provider_key := provider_key, code := code, status := "open"
           summary := summary, details := details, opened_at := now, updated_at := now }] }
      (iid, append_run s1 now "incident_open"
        [("id", .num iid), ("provider_key", .str provider_key), ("code", .str code)])

/-- What `update_incident` does to the matched incident: set the status,
bump `updated_at`, and merge a truthy note under `"note"` (a `None` or empty
note is falsy and merges nothing). -/
def upd_inc (inc : Incident) (status : String) (note : Option String)
    (now : Int) : Incident :=
  let inc1 := { inc with status := status, updated_at := now }
  match note with
  | some n => if n = "" then inc1
              else { inc1 with details := mergeA inc1.details [("note", .str n)] }
  | none => inc1

/-- The loop body of `update_incident`: rewrite the first incident with the
given id; `none` when no incident has the id. -/
def update_incident_list : List Incident → Int → String → Option String → Int →
    Option (List Incident)
  | [], _, _, _, _ => none
  | inc :: rest, iid, status, note, now =>
      if inc.id = iid then
        some (upd_inc inc status note now :: rest)
      else
        match update_incident_list rest iid status note now with
        | some rest' => some (inc :: rest')
        | none => none

/-- `update_incident(iid, status, note)`: `True` and the saved state, or
`False` with the state untouched (nothing is saved on that path). -/
def update_incident (s : OpsState) (iid : Int) (status : String)
    (note : Option String) (now : Int) : Bool × OpsState :=
  match update_incident_list s.incidents iid status note now with
  | some incs => (true, { s with incidents := incs })
  | none => (false, s)

/-! ## Refresh / health -/

/-- The running aggregates of `refresh_all_providers`. -/
structure RefreshAcc where
  st : OpsState
  total : Nat
  errors : Nat
  warns : Nat
  opened : List Int
deriving Repr

/-- The result dict of `refresh_all_providers`. -/
structure RefreshResult where
  count : Nat
  errors : Nat
  warns : Nat
  opened_incidents : List Int
deriving DecidableEq, Repr

/-- `if only and key not in only: continue` — an empty `only` list is falsy,
so it restricts nothing. -/
def skipProvider (only : Option (List String)) (key : String) : Bool :=
  match only with
  | none => false
  | some l => ¬ l = [] ∧ ¬ key ∈ l

/-- The snapshot dict of `key` for financial year `fy`, `fy_snap.get(key)`. -/
def getSnap (s : OpsState) (fy key : String) : Option (AList JVal) :=
  alookup ((alookup s.snapshots fy).getD []) key

/-- Store `fy_snap[key] = snap`. -/
def setSnap (s : OpsState) (fy key : String) (snap : AList JVal) : OpsState :=
  let inner := setA ((alookup s.snapshots fy).getD []) key snap
  { s with snapshots := setA s.snapshots fy inner }

/-- `snapshots.setdefault(fy, {})`. -/
def ensure_fy_snap (s : OpsState) (fy : String) : OpsState :=
  match alookup s.snapshots fy with
  | some _ => s
  | none => { s with snapshots := s.snapshots ++ [(fy, [])] }

/-- The value logged for `only` in the `refresh_start` entry
(`only or "ALL"`). -/
def onlyVal (only : Option (List String)) : JVal :=
  match only with
  | none => .str "ALL"
  | some l => if l = [] then .str "ALL" else .strs l

/-- The issue list of one provider in a refresh pass: validation issues,
plus the drift issue (with the provider key patched in) when one fires. -/
def issues_for (key : String) (t : Tariff) (prev_snap : Option (AList JVal)) :
    List ValidationIssue :=
  let issues0 := validate_provider key t
  match compare_drift prev_snap (snapshot_for_drift t) with
  | some di => issues0 ++ [{ di with provider_key := key }]
  | none => issues0

/-- The health record `refresh_all_providers` stores for one provider:
timestamp, the three-way classification, then the non-communication
escalation override. -/
def classify_health (ph0 : ProviderHealth) (key : String) (t : Tariff)
    (prev_snap : Option (AList JVal)) (now : Int) : ProviderHealth :=
  let ph1 := { ph0 with last_checked := some now }
  let issues := issues_for key t prev_snap
  let has_error := issues.any (fun i => i.severity = "ERROR")
  let ph2 :=
    if is_placeholder t then
      { ph1 with status := "INCOMPLETE", failure_count := ph1.failure_count + 1,
                 notes := ["Placeholder tariffs; needs curation."] }
    else if has_error then
      { ph1 with status := "ERROR", failure_count := ph1.failure_count + 1 }
    else
      { ph1 with status := "OK", last_success := some now, failure_count := 0,
                 notes := [] }
  if NONCOMMUNICATION_THRESHOLD ≤ ph2.failure_count then
    { ph2 with status := "NON_COMMUNICATING" }
  else ph2

/-- The `for i in issues: if ERROR: open incident` loop of the refresh pass. -/
def open_error_incidents (key : String) (now : Int)
    (issues : List ValidationIssue) (p : OpsState × List Int) :
    OpsState × List Int :=
  issues.foldl
    (fun (p : OpsState × List Int) i =>
      if i.severity = "ERROR" then
        let r := open_or_update_incident p.1 key i.code i.message i.context now
        (r.2, p.2 ++ [r.1])
      else p)
    p

/-- Per-provider loop body of `refresh_all_providers`. -/
def refresh_step (fy : String) (now : Int) (only : Option (List String))
    (acc : RefreshAcc) (kt : String × Tariff) : RefreshAcc :=
  let key := kt.1
  let t := kt.2
  if skipProvider only key then acc
  else
    let pair := ensure_health acc.st key
    let st1 := pair.2
    let prev_snap := getSnap st1 fy key
    let issues := issues_for key t prev_snap
    let has_error := issues.any (fun i => i.severity = "ERROR")
    let has_warn := issues.any (fun i => i.severity = "WARN")
    let ph3 := classify_health pair.1 key t prev_snap now
    let errors' := if is_placeholder t then acc.errors + 1
                   else if has_error then acc.errors + 1 else acc.errors
    let warns' := if is_placeholder t ∨ has_error then acc.warns
                  else if has_warn then acc.warns + 1 else acc.warns
    -- Non-communicating escalation (`failure_count` is unchanged by the
    -- status override, so `ph3.failure_count` is the classified counter)
    let stepA :=
      if NONCOMMUNICATION_THRESHOLD ≤ ph3.failure_count then
        let r := open_or_update_incident st1 key "NON_COMMUNICATING"
          (key ++ " failed " ++ toString ph3.failure_count ++ " consecutive checks.")
          [("failure_count", .num ph3.failure_count)] now
        (r.2, [r.1])
      else (st1, [])
    -- Open incidents for ERROR issues
    let stepB := open_error_incidents key now issues stepA
    let st4 := put_health stepB.1 ph3
    let st5 := setSnap st4 fy key (snapshot_for_drift t)
    { st := st5, total := acc.total + 1, errors := errors', warns := warns'
      opened := acc.opened ++ stepB.2 }

/-- The note text `_apply_freshness_sla` writes on a stale provider. -/
def stale_note (age : Int) : String :=
  "Stale: last check " ++ toString age ++ " days ago (> " ++
    toString FRESHNESS_SLA_DAYS ++ " SLA)."

/-- A health record rewritten as stale. -/
def mark_stale (ph : ProviderHealth) (age : Int) : ProviderHealth :=
  { ph with status := "STALE", notes := [stale_note age] }

/-- What the freshness sweep does to one health record. -/
def sweep_one (ph : ProviderHealth) (now : Int) : ProviderHealth :=
  match ph.last_checked with
  | some tc =>
      if FRESHNESS_SLA_DAYS < ageDays now tc ∧
          (ph.status = "OK" ∨ ph.status = "UNKNOWN") then
        mark_stale ph (ageDays now tc)
      else ph
  | none => ph

/-- `_apply_freshness_sla` loop body for one provider key. -/
def sweep_step (now : Int) (s : OpsState) (key : String) : OpsState :=
  let pair := ensure_health s key
  let ph := pair.1
  let s1 := pair.2
  match ph.last_checked with
  | some tc =>
      let age := ageDays now tc
      if FRESHNESS_SLA_DAYS < age ∧ (ph.status = "OK" ∨ ph.status = "UNKNOWN") then
        put_health s1 (mark_stale ph age)
      else s1
  | none => s1

/-- `_apply_freshness_sla(state)`: sweep over every provider of the tariff
table. -/
def apply_freshness_sla (provs : AList Tariff) (now : Int) (s : OpsState) :
    OpsState :=
  (provs.map Prod.fst).foldl (sweep_step now) s

/-- The `refresh_start` log entry plus the per-provider loop of
`refresh_all_providers`. -/
def refresh_core (provs : AList Tariff) (only : Option (List String))
    (now : Int) (state : OpsState) : RefreshAcc :=
  let st := append_run state now "refresh_start" [("only", onlyVal only)]
  let fy := st.meta_fy
  let st := ensure_fy_snap st fy
  provs.foldl (refresh_step fy now only)
    { st := st, total := 0, errors := 0, warns := 0, opened := [] }

/-- `refresh_all_providers(only)`, with the tariff table and the clock as
explicit arguments. -/
def refresh_all_providers (provs : AList Tariff) (only : Option (List String))
    (now : Int) (state : OpsState) : RefreshResult × OpsState :=
  let acc := refresh_core provs only now state
  let st2 := apply_freshness_sla provs now acc.st
  let sch0 := st2.scheduler
  let nd := next_due (some now) sch0.interval_minutes now
  let sch := { sch0 with last_run_at := some now, next_run_due_at := nd }
  let st3 := { st2 with scheduler := sch }
  let st4 := append_run st3 now "refresh_end"
    [("count", .num acc.total), ("errors", .num acc.errors),
     ("warns", .num acc.warns), ("incidents_opened", .num acc.opened.length)]
  ({ count := acc.total, errors := acc.errors, warns := acc.warns,
     opened_incidents := acc.opened }, st4)

/-! ## Scheduler scaffold and manual entry points -/

/-- `set_scheduler_enabled(enabled, interval_minutes)`. -/
def set_scheduler_enabled (enabled : Bool) (interval_minutes : Option Int)
    (now : Int) (s : OpsState) : SchedulerState × OpsState :=
  let sch0 := s.scheduler
  let sch1 := { sch0 with enabled := enabled }
  let sch2 := match interval_minutes with
    | some m => { sch1 with interval_minutes := m }
    | none => sch1
  let event := if enabled then "scheduler_on" else "scheduler_off"
  let sch3 := { sch2 with history := sch2.history ++ [(now, enabled, sch2.interval_minutes)] }
  let nd := if enabled then next_due sch3.last_run_at sch3.interval_minutes now else none
  let sch4 := { sch3 with next_run_due_at := nd }
  let s1 := { s with scheduler := sch4 }
  let s2 := append_run s1 now event [("interval_minutes", .num sch4.interval_minutes)]
  (s2.scheduler, s2)

/-- `maybe_run_scheduled_refresh()`. -/
def maybe_run_scheduled_refresh (provs : AList Tariff) (now : Int)
    (s : OpsState) : Option RefreshResult × OpsState :=
  let sch := s.scheduler
  if !sch.enabled then (none, s)
  else
    match sch.next_run_due_at with
    | none => (none, s)
    | some due =>
        if due ≤ now then
          let r := refresh_all_providers provs none now s
          let s1 := r.2
          let sch1 := s1.scheduler
          let nd := next_due sch1.last_run_at sch1.interval_minutes now
          let s2 := { s1 with scheduler := { sch1 with next_run_due_at := nd } }
          (some r.1, s2)
        else (none, s)

/-- `mark_provider_checked(provider_key, success, note)`. -/
def mark_provider_checked (provider_key : String) (success : Bool)
    (note : Option String) (now : Int) (s : OpsState) :
    ProviderHealth × OpsState :=
  let pair := ensure_health s provider_key
  let ph0 := pair.1
  let s1 := pair.2
  let ph1 := { ph0 with last_checked := some now }
  let ph2 :=
    if success then
      { ph1 with last_success := some now, status := "OK", failure_count := 0 }
    else
      let ph' := { ph1 with failure_count := ph1.failure_count + 1 }
      if NONCOMMUNICATION_THRESHOLD ≤ ph'.failure_count then
        { ph' with status := "NON_COMMUNICATING" }
      else ph'
  let ph3 := match note with
    | some n => if n = "" then ph2 else { ph2 with notes := ph2.notes ++ [n] }
    | none => ph2
  (ph3, put_health s1 ph3)

/-! ## Reachability: the operations a caller can run against the store -/

/-- One call to a state-mutating entry point. -/
inductive Op where
  | refresh (only : Option (List String)) (now : Int)
  | mark (provider_key : String) (success : Bool) (note : Option String) (now : Int)
  | updateInc (iid : Int) (status : String) (note : Option String) (now : Int)
  | setSched (enabled : Bool) (interval_minutes : Option Int) (now : Int)
  | maybeRun (now : Int)
deriving DecidableEq, Repr

/-- The state after one entry-point call (return values dropped). -/
def applyOp (provs : AList Tariff) (s : OpsState) : Op → OpsState
  | .refresh only now => (refresh_all_providers provs only now s).2
  | .mark pk success note now => (mark_provider_checked pk success note now s).2
  | .updateInc iid status note now => (update_incident s iid status note now).2
  | .setSched enabled interval now => (set_scheduler_enabled enabled interval now s).2
  | .maybeRun now => (maybe_run_scheduled_refresh provs now s).2

/-- The state after a sequence of calls, starting anywhere. -/
def runOps (provs : AList Tariff) (s : OpsState) (ops : List Op) : OpsState :=
  ops.foldl (applyOp provs) s

/-- A persisted state reachable from the initialized document. -/
def Reachable (provs : AList Tariff) (s : OpsState) : Prop :=
  ∃ ops : List Op, s = runOps provs initState ops

/-! ## Basic lemmas about the dict embedding -/

theorem alookup_setA_self {α : Type} (l : AList α) (k : String) (v : α) :
    alookup (setA l k v) k = some v := by
  induction l with
  | nil => simp [setA, alookup]
  | cons p rest ih =>
      by_cases h : p.1 = k
      · simp [setA, h, alookup]
      · simp [setA, h, alookup, ih]

theorem alookup_setA_ne {α : Type} (l : AList α) (k' k : String) (v : α)
    (h : k' ≠ k) : alookup (setA l k' v) k = alookup l k := by
  induction l with
  | nil => simp [setA, alookup, h]
  | cons p rest ih =>
      by_cases hp : p.1 = k'
      · have hpk : p.1 ≠ k := by rw [hp]; exact h
        simp [setA, hp, alookup, h, hpk]
      · by_cases hk : p.1 = k
        · have hks : ¬ k = k' := fun e => h e.symm
          simp [setA, hp, alookup, hk, hks]
        · simp [setA, hp, alookup, hk, ih]

theorem alookup_append {α : Type} (l₁ l₂ : AList α) (k : String) :
    alookup (l₁ ++ l₂) k =
      match alookup l₁ k with
      | some v => some v
      | none => alookup l₂ k := by
  induction l₁ with
  | nil => simp [alookup]
  | cons p rest ih =>
      by_cases hp : p.1 = k
      · simp [alookup, hp]
      · simp [alookup, hp, ih]

theorem mem_setA {α : Type} {l : AList α} {k : String} {v : α} {p : String × α}
    (h : p ∈ setA l k v) : p = (k, v) ∨ p ∈ l := by
  induction l with
  | nil => simpa [setA] using h
  | cons q rest ih =>
      by_cases hq : q.1 = k
      · simp only [setA, hq, if_true] at h
        rcases List.mem_cons.mp h with h' | h'
        · exact Or.inl h'
        · exact Or.inr (List.mem_cons_of_mem _ h')
      · simp only [setA, hq, if_false] at h
        rcases List.mem_cons.mp h with h' | h'
        · exact Or.inr (h' ▸ List.mem_cons_self _ _)
        · rcases ih h' with h'' | h''
          · exact Or.inl h''
          · exact Or.inr (List.mem_cons_of_mem _ h'')

theorem alookup_mem {α : Type} {l : AList α} {k : String} {v : α}
    (h : alookup l k = some v) : (k, v) ∈ l := by
  induction l with
  | nil => simp [alookup] at h
  | cons p rest ih =>
      obtain ⟨a, b⟩ := p
      by_cases hp : a = k
      · simp only [alookup, hp, if_true, Option.some.injEq] at h
        subst hp
        subst h
        exact List.mem_cons_self _ _
      · simp only [alookup, hp, if_false] at h
        exact List.mem_cons_of_mem _ (ih h)

/-- A fold whose steps leave a projection unchanged leaves it unchanged. -/
theorem foldl_proj {γ α β : Type} (f : γ → α → γ) (g : γ → β)
    (h : ∀ a x, g (f a x) = g a) :
    ∀ (l : List α) (a : γ), g (List.foldl f a l) = g a := by
  intro l
  induction l with
  | nil => intro a; rfl
  | cons x xs ih => intro a; rw [List.foldl_cons, ih, h]

/-! ## Structural well-formedness: each health record is keyed by its own
provider key.  Every state the program ever writes satisfies this. -/

def WFprov (s : OpsState) : Prop :=
  ∀ p ∈ s.providers, p.2.provider_key = p.1

theorem wfprov_init : WFprov initState := by
  intro p hp
  simp [initState] at hp

/-! ## `ensure_health` / `put_health` basics -/

theorem ensure_health_fst (s : OpsState) (k : String) :
    (ensure_health s k).1 = (alookup s.providers k).getD { provider_key := k } := by
  unfold ensure_health
  cases alookup s.providers k <;> rfl

theorem ensure_health_key (s : OpsState) (k : String) (h : WFprov s) :
    (ensure_health s k).1.provider_key = k := by
  unfold ensure_health
  cases hh : alookup s.providers k with
  | none => rfl
  | some ph => exact h _ (alookup_mem hh)

theorem ensure_health_lookup_self (s : OpsState) (k : String) :
    alookup (ensure_health s k).2.providers k = some (ensure_health s k).1 := by
  unfold ensure_health
  cases hh : alookup s.providers k with
  | none => simp [alookup_append, hh, alookup]
  | some ph => simpa using hh

theorem ensure_health_lookup_ne (s : OpsState) (k' k : String) (h : k' ≠ k) :
    alookup (ensure_health s k').2.providers k = alookup s.providers k := by
  unfold ensure_health
  cases hh : alookup s.providers k' with
  | none =>
      rw [alookup_append]
      cases alookup s.providers k <;> simp [alookup, h]
  | some ph => rfl

theorem ensure_health_frame (s : OpsState) (k : String) :
    (ensure_health s k).2.incidents = s.incidents ∧
    (ensure_health s k).2.runs = s.runs ∧
    (ensure_health s k).2.scheduler = s.scheduler ∧
    (ensure_health s k).2.snapshots = s.snapshots ∧
    (ensure_health s k).2.meta_fy = s.meta_fy := by
  unfold ensure_health
  cases alookup s.providers k <;> exact ⟨rfl, rfl, rfl, rfl, rfl⟩

theorem mem_ensure_health {s : OpsState} {k : String} {p : String × ProviderHealth}
    (h : p ∈ (ensure_health s k).2.providers) :
    p ∈ s.providers ∨ p = (k, { provider_key := k }) := by
  unfold ensure_health at h
  cases hh : alookup s.providers k with
  | none =>
      rw [hh] at h
      simp only at h
      rcases List.mem_append.mp h with h' | h'
      · exact Or.inl h'
      · simp at h'
        exact Or.inr (by simp [h'])
  | some ph =>
      rw [hh] at h
      exact Or.inl h

theorem wfprov_ensure (s : OpsState) (k : String) (h : WFprov s) :
    WFprov (ensure_health s k).2 := by
  intro p hp
  rcases mem_ensure_health hp with h' | h'
  · exact h _ h'
  · simp [h']

theorem put_health_lookup_self (s : OpsState) (ph : ProviderHealth) :
    alookup (put_health s ph).providers ph.provider_key = some ph :=
  alookup_setA_self _ _ _

theorem put_health_lookup_ne (s : OpsState) (ph : ProviderHealth) (k : String)
    (h : ph.provider_key ≠ k) :
    alookup (put_health s ph).providers k = alookup s.providers k :=
  alookup_setA_ne _ _ _ _ h

theorem wfprov_put (s : OpsState) (ph : ProviderHealth) (h : WFprov s) :
    WFprov (put_health s ph) := by
  intro p hp
  rcases mem_setA hp with h' | h'
  · simp [h']
  · exact h _ h'

/-! ## Frame lemmas: which fields each primitive leaves alone -/

@[simp] theorem append_run_providers (s : OpsState) (now : Int) (e : String)
    (d : AList JVal) : (append_run s now e d).providers = s.providers := rfl

@[simp] theorem append_run_incidents (s : OpsState) (now : Int) (e : String)
    (d : AList JVal) : (append_run s now e d).incidents = s.incidents := rfl

@[simp] theorem append_run_scheduler (s : OpsState) (now : Int) (e : String)
    (d : AList JVal) : (append_run s now e d).scheduler = s.scheduler := rfl

@[simp] theorem append_run_snapshots (s : OpsState) (now : Int) (e : String)
    (d : AList JVal) : (append_run s now e d).snapshots = s.snapshots := rfl

@[simp] theorem append_run_meta_fy (s : OpsState) (now : Int) (e : String)
    (d : AList JVal) : (append_run s now e d).meta_fy = s.meta_fy := rfl

@[simp] theorem setSnap_providers (s : OpsState) (fy k : String) (v : AList JVal) :
    (setSnap s fy k v).providers = s.providers := rfl

@[simp] theorem setSnap_incidents (s : OpsState) (fy k : String) (v : AList JVal) :
    (setSnap s fy k v).incidents = s.incidents := rfl

@[simp] theorem setSnap_runs (s : OpsState) (fy k : String) (v : AList JVal) :
    (setSnap s fy k v).runs = s.runs := rfl

@[simp] theorem setSnap_scheduler (s : OpsState) (fy k : String) (v : AList JVal) :
    (setSnap s fy k v).scheduler = s.scheduler := rfl

@[simp] theorem setSnap_meta_fy (s : OpsState) (fy k : String) (v : AList JVal) :
    (setSnap s fy k v).meta_fy = s.meta_fy := rfl

@[simp] theorem put_health_incidents (s : OpsState) (ph : ProviderHealth) :
    (put_health s ph).incidents = s.incidents := rfl

@[simp] theorem put_health_runs (s : OpsState) (ph : ProviderHealth) :
    (put_health s ph).runs = s.runs := rfl

@[simp] theorem put_health_scheduler (s : OpsState) (ph : ProviderHealth) :
    (put_health s ph).scheduler = s.scheduler := rfl

@[simp] theorem put_health_snapshots (s : OpsState) (ph : ProviderHealth) :
    (put_health s ph).snapshots = s.snapshots := rfl

@[simp] theorem put_health_meta_fy (s : OpsState) (ph : ProviderHealth) :
    (put_health s ph).meta_fy = s.meta_fy := rfl

theorem ensure_fy_snap_frame (s : OpsState) (fy : String) :
    (ensure_fy_snap s fy).providers = s.providers ∧
    (ensure_fy_snap s fy).incidents = s.incidents ∧
    (ensure_fy_snap s fy).runs = s.runs ∧
    (ensure_fy_snap s fy).scheduler = s.scheduler ∧
    (ensure_fy_snap s fy).meta_fy = s.meta_fy := by
  unfold ensure_fy_snap
  cases alookup s.snapshots fy <;> exact ⟨rfl, rfl, rfl, rfl, rfl⟩

theorem open_or_update_frame (s : OpsState) (pk c sm : String) (d : AList JVal)
    (now : Int) :
    (open_or_update_incident s pk c sm d now).2.providers = s.providers ∧
    (open_or_update_incident s pk c sm d now).2.scheduler = s.scheduler ∧
    (open_or_update_incident s pk c sm d now).2.snapshots = s.snapshots ∧
    (open_or_update_incident s pk c sm d now).2.meta_fy = s.meta_fy := by
  unfold open_or_update_incident
  cases find_open_incident s.incidents pk c <;> exact ⟨rfl, rfl, rfl, rfl⟩

theorem open_error_incidents_frame (key : String) (now : Int)
    (issues : List ValidationIssue) (p : OpsState × List Int) :
    (open_error_incidents key now issues p).1.providers = p.1.providers ∧
    (open_error_incidents key now issues p).1.scheduler = p.1.scheduler ∧
    (open_error_incidents key now issues p).1.snapshots = p.1.snapshots ∧
    (open_error_incidents key now issues p).1.meta_fy = p.1.meta_fy := by
  unfold open_error_incidents
  refine ⟨foldl_proj _ (fun a => a.1.providers) ?_ issues p,
          foldl_proj _ (fun a => a.1.scheduler) ?_ issues p,
          foldl_proj _ (fun a => a.1.snapshots) ?_ issues p,
          foldl_proj _ (fun a => a.1.meta_fy) ?_ issues p⟩ <;>
  · intro a i
    by_cases hi : i.severity = "ERROR" <;>
      simp [hi, (open_or_update_frame a.1 key i.code i.message i.context now).1,
        (open_or_update_frame a.1 key i.code i.message i.context now).2.1,
        (open_or_update_frame a.1 key i.code i.message i.context now).2.2.1,
        (open_or_update_frame a.1 key i.code i.message i.context now).2.2.2]

theorem update_incident_frame (s : OpsState) (iid : Int) (st : String)
    (note : Option String) (now : Int) :
    (update_incident s iid st note now).2.providers = s.providers ∧
    (update_incident s iid st note now).2.runs = s.runs ∧
    (update_incident s iid st note now).2.scheduler = s.scheduler ∧
    (update_incident s iid st note now).2.snapshots = s.snapshots ∧
    (update_incident s iid st note now).2.meta_fy = s.meta_fy := by
  unfold update_incident
  cases update_incident_list s.incidents iid st note now <;>
    exact ⟨rfl, rfl, rfl, rfl, rfl⟩

theorem set_scheduler_frame (e : Bool) (iv : Option Int) (now : Int)
    (s : OpsState) :
    (set_scheduler_enabled e iv now s).2.providers = s.providers ∧
    (set_scheduler_enabled e iv now s).2.incidents = s.incidents ∧
    (set_scheduler_enabled e iv now s).2.snapshots = s.snapshots ∧
    (set_scheduler_enabled e iv now s).2.meta_fy = s.meta_fy := by
  unfold set_scheduler_enabled
  cases iv <;> exact ⟨rfl, rfl, rfl, rfl⟩

theorem mark_frame (pk : String) (success : Bool) (note : Option String)
    (now : Int) (s : OpsState) :
    (mark_provider_checked pk success note now s).2.incidents = s.incidents ∧
    (mark_provider_checked pk success note now s).2.runs = s.runs ∧
    (mark_provider_checked pk success note now s).2.scheduler = s.scheduler ∧
    (mark_provider_checked pk success note now s).2.snapshots = s.snapshots ∧
    (mark_provider_checked pk success note now s).2.meta_fy = s.meta_fy := by
  have he := ensure_health_frame s pk
  unfold mark_provider_checked put_health
  refine ⟨?_, ?_, ?_, ?_, ?_⟩ <;> simp [he.1, he.2.1, he.2.2.1, he.2.2.2.1, he.2.2.2.2]

theorem sweep_step_frame (now : Int) (s : OpsState) (key : String) :
    (sweep_step now s key).incidents = s.incidents ∧
    (sweep_step now s key).runs = s.runs ∧
    (sweep_step now s key).scheduler = s.scheduler ∧
    (sweep_step now s key).snapshots = s.snapshots ∧
    (sweep_step now s key).meta_fy = s.meta_fy := by
  have he := ensure_health_frame s key
  simp only [sweep_step]
  cases hlc : (ensure_health s key).1.last_checked with
  | none => exact he
  | some tc =>
      dsimp only
      by_cases hc : FRESHNESS_SLA_DAYS < ageDays now tc ∧
        ((ensure_health s key).1.status = "OK" ∨ (ensure_health s key).1.status = "UNKNOWN")
      · rw [if_pos hc]
        simpa using he
      · rw [if_neg hc]
        exact he

theorem sweep_frame (provs : AList Tariff) (now : Int) (s : OpsState) :
    (apply_freshness_sla provs now s).incidents = s.incidents ∧
    (apply_freshness_sla provs now s).runs = s.runs ∧
    (apply_freshness_sla provs now s).scheduler = s.scheduler ∧
    (apply_freshness_sla provs now s).snapshots = s.snapshots ∧
    (apply_freshness_sla provs now s).meta_fy = s.meta_fy := by
  unfold apply_freshness_sla
  refine ⟨foldl_proj _ (fun a => a.incidents) ?_ _ s,
          foldl_proj _ (fun a => a.runs) ?_ _ s,
          foldl_proj _ (fun a => a.scheduler) ?_ _ s,
          foldl_proj _ (fun a => a.snapshots) ?_ _ s,
          foldl_proj _ (fun a => a.meta_fy) ?_ _ s⟩ <;>
  · intro a k
    first
    | exact (sweep_step_frame now a k).1
    | exact (sweep_step_frame now a k).2.1
    | exact (sweep_step_frame now a k).2.2.1
    | exact (sweep_step_frame now a k).2.2.2.1
    | exact (sweep_step_frame now a k).2.2.2.2

theorem refresh_step_frame (fy : String) (now : Int) (only : Option (List String))
    (acc : RefreshAcc) (kt : String × Tariff) :
    (refresh_step fy now only acc kt).st.scheduler = acc.st.scheduler ∧
    (refresh_step fy now only acc kt).st.meta_fy = acc.st.meta_fy := by
  unfold refresh_step
  by_cases hskip : skipProvider only kt.1 = true
  · simp [hskip]
  · have he := ensure_health_frame acc.st kt.1
    have ho := open_error_incidents_frame kt.1 now
    simp only [hskip, Bool.false_eq_true, if_false]
    by_cases hesc : NONCOMMUNICATION_THRESHOLD ≤
        (classify_health (ensure_health acc.st kt.1).1 kt.1 kt.2
          (getSnap (ensure_health acc.st kt.1).2 fy kt.1) now).failure_count
    · simp only [hesc, if_true]
      constructor
      · rw [setSnap_scheduler, put_health_scheduler, (ho _ _).2.1,
          (open_or_update_frame _ _ _ _ _ _).2.1, he.2.2.1]
      · rw [setSnap_meta_fy, put_health_meta_fy, (ho _ _).2.2.2,
          (open_or_update_frame _ _ _ _ _ _).2.2.2, he.2.2.2.2]
    · simp only [hesc, if_false]
      constructor
      · rw [setSnap_scheduler, put_health_scheduler, (ho _ _).2.1, he.2.2.1]
      · rw [setSnap_meta_fy, put_health_meta_fy, (ho _ _).2.2.2, he.2.2.2.2]

@[simp] theorem sweep_incidents (provs : AList Tariff) (now : Int) (s : OpsState) :
    (apply_freshness_sla provs now s).incidents = s.incidents :=
  (sweep_frame provs now s).1

@[simp] theorem sweep_runs (provs : AList Tariff) (now : Int) (s : OpsState) :
    (apply_freshness_sla provs now s).runs = s.runs :=
  (sweep_frame provs now s).2.1

@[simp] theorem sweep_scheduler (provs : AList Tariff) (now : Int) (s : OpsState) :
    (apply_freshness_sla provs now s).scheduler = s.scheduler :=
  (sweep_frame provs now s).2.2.1

@[simp] theorem sweep_snapshots (provs : AList Tariff) (now : Int) (s : OpsState) :
    (apply_freshness_sla provs now s).snapshots = s.snapshots :=
  (sweep_frame provs now s).2.2.2.1

@[simp] theorem sweep_meta_fy (provs : AList Tariff) (now : Int) (s : OpsState) :
    (apply_freshness_sla provs now s).meta_fy = s.meta_fy :=
  (sweep_frame provs now s).2.2.2.2

@[simp] theorem ensure_fy_snap_providers (s : OpsState) (fy : String) :
    (ensure_fy_snap s fy).providers = s.providers :=
  (ensure_fy_snap_frame s fy).1

@[simp] theorem ensure_fy_snap_incidents (s : OpsState) (fy : String) :
    (ensure_fy_snap s fy).incidents = s.incidents :=
  (ensure_fy_snap_frame s fy).2.1

@[simp] theorem ensure_fy_snap_runs (s : OpsState) (fy : String) :
    (ensure_fy_snap s fy).runs = s.runs :=
  (ensure_fy_snap_frame s fy).2.2.1

@[simp] theorem ensure_fy_snap_scheduler (s : OpsState) (fy : String) :
    (ensure_fy_snap s fy).scheduler = s.scheduler :=
  (ensure_fy_snap_frame s fy).2.2.2.1

@[simp] theorem ensure_fy_snap_meta_fy (s : OpsState) (fy : String) :
    (ensure_fy_snap s fy).meta_fy = s.meta_fy :=
  (ensure_fy_snap_frame s fy).2.2.2.2

@[simp] theorem refresh_loop_scheduler (fy : String) (now : Int)
    (only : Option (List String)) (provs : AList Tariff) (acc : RefreshAcc) :
    (provs.foldl (refresh_step fy now only) acc).st.scheduler = acc.st.scheduler :=
  foldl_proj _ (fun a => a.st.scheduler)
    (fun a x => (refresh_step_frame fy now only a x).1) provs acc

@[simp] theorem refresh_loop_meta_fy (fy : String) (now : Int)
    (only : Option (List String)) (provs : AList Tariff) (acc : RefreshAcc) :
    (provs.foldl (refresh_step fy now only) acc).st.meta_fy = acc.st.meta_fy :=
  foldl_proj _ (fun a => a.st.meta_fy)
    (fun a x => (refresh_step_frame fy now only a x).2) provs acc

@[simp] theorem refresh_core_scheduler (provs : AList Tariff)
    (only : Option (List String)) (now : Int) (s : OpsState) :
    (refresh_core provs only now s).st.scheduler = s.scheduler := by
  unfold refresh_core
  simp

@[simp] theorem refresh_core_meta_fy (provs : AList Tariff)
    (only : Option (List String)) (now : Int) (s : OpsState) :
    (refresh_core provs only now s).st.meta_fy = s.meta_fy := by
  unfold refresh_core
  simp

theorem refresh_meta_fy (provs : AList Tariff) (only : Option (List String))
    (now : Int) (s : OpsState) :
    (refresh_all_providers provs only now s).2.meta_fy = s.meta_fy := by
  unfold refresh_all_providers
  simp

/-- What a refresh does to the scheduler record. -/
def sched_after (sch : SchedulerState) (now : Int) : SchedulerState :=
  let nd := next_due (some now) sch.interval_minutes now
  { sch with last_run_at := some now, next_run_due_at := nd }

/-- The scheduler after a refresh: only `last_run_at` and `next_run_due_at`
change, to `now` and the recomputed due time. -/
theorem refresh_scheduler (provs : AList Tariff) (only : Option (List String))
    (now : Int) (s : OpsState) :
    (refresh_all_providers provs only now s).2.scheduler =
      sched_after s.scheduler now := by
  unfold refresh_all_providers sched_after
  simp

/-! ## The non-communication health invariant (claim C1) -/

/-- The escalation invariant for a single health record. -/
def HIgood (ph : ProviderHealth) : Prop :=
  NONCOMMUNICATION_THRESHOLD ≤ ph.failure_count → ph.status = "NON_COMMUNICATING"

/-- The escalation invariant over the whole document. -/
def HealthInv (s : OpsState) : Prop :=
  ∀ p ∈ s.providers, HIgood p.2

theorem healthInv_of_eq {s' s : OpsState} (h : s'.providers = s.providers)
    (hi : HealthInv s) : HealthInv s' := by
  intro p hp
  exact hi p (h ▸ hp)

theorem foldl_inv {γ α : Type} (f : γ → α → γ) (P : γ → Prop)
    (h : ∀ a x, P a → P (f a x)) :
    ∀ (l : List α) (a : γ), P a → P (List.foldl f a l) := by
  intro l
  induction l with
  | nil => intro a ha; exact ha
  | cons x xs ih => intro a ha; exact ih _ (h a x ha)

theorem HIgood_default (k : String) : HIgood { provider_key := k } := by
  intro h
  have h0 : ¬ NONCOMMUNICATION_THRESHOLD ≤ 0 := by decide
  exact absurd h h0

theorem HIgood_ensure (s : OpsState) (k : String) (h : HealthInv s) :
    HIgood (ensure_health s k).1 := by
  unfold ensure_health
  cases hh : alookup s.providers k with
  | none => exact HIgood_default k
  | some ph => exact h _ (alookup_mem hh)

theorem healthInv_ensure (s : OpsState) (k : String) (h : HealthInv s) :
    HealthInv (ensure_health s k).2 := by
  intro p hp
  rcases mem_ensure_health hp with h' | h'
  · exact h _ h'
  · rw [h']
    exact HIgood_default k

@[simp] theorem put_health_providers (s : OpsState) (ph : ProviderHealth) :
    (put_health s ph).providers = setA s.providers ph.provider_key ph := rfl

theorem healthInv_put (s : OpsState) (ph : ProviderHealth) (h : HealthInv s)
    (hph : HIgood ph) : HealthInv (put_health s ph) := by
  intro p hp
  rw [put_health_providers] at hp
  rcases mem_setA hp with h' | h'
  · rw [h']
    exact hph
  · exact h _ h'

theorem HIgood_escalate (ph2 : ProviderHealth) :
    HIgood (if NONCOMMUNICATION_THRESHOLD ≤ ph2.failure_count then
      { ph2 with status := "NON_COMMUNICATING" } else ph2) := by
  by_cases h : NONCOMMUNICATION_THRESHOLD ≤ ph2.failure_count
  · rw [if_pos h]
    intro _
    rfl
  · rw [if_neg h]
    intro h2
    exact absurd h2 h

theorem HIgood_classify (ph0 : ProviderHealth) (key : String) (t : Tariff)
    (prev : Option (AList JVal)) (now : Int) :
    HIgood (classify_health ph0 key t prev now) := by
  unfold classify_health
  exact HIgood_escalate _

theorem healthInv_refresh_step (fy : String) (now : Int)
    (only : Option (List String)) (acc : RefreshAcc) (kt : String × Tariff)
    (h : HealthInv acc.st) : HealthInv (refresh_step fy now only acc kt).st := by
  unfold refresh_step
  by_cases hskip : skipProvider only kt.1 = true
  · simp only [hskip, if_true]
    exact h
  · simp only [hskip, Bool.false_eq_true, if_false]
    apply healthInv_of_eq (setSnap_providers _ _ _ _)
    apply healthInv_put _ _ _ (HIgood_classify _ _ _ _ _)
    apply healthInv_of_eq (open_error_incidents_frame _ _ _ _).1
    by_cases hesc : NONCOMMUNICATION_THRESHOLD ≤
        (classify_health (ensure_health acc.st kt.1).1 kt.1 kt.2
          (getSnap (ensure_health acc.st kt.1).2 fy kt.1) now).failure_count
    · rw [if_pos hesc]
      apply healthInv_of_eq (open_or_update_frame _ _ _ _ _ _).1
      exact healthInv_ensure _ _ h
    · rw [if_neg hesc]
      exact healthInv_ensure _ _ h

theorem healthInv_sweep_step (now : Int) (s : OpsState) (key : String)
    (h : HealthInv s) : HealthInv (sweep_step now s key) := by
  simp only [sweep_step]
  cases hlc : (ensure_health s key).1.last_checked with
  | none => exact healthInv_ensure s key h
  | some tc =>
      dsimp only
      by_cases hc : FRESHNESS_SLA_DAYS < ageDays now tc ∧
        ((ensure_health s key).1.status = "OK" ∨ (ensure_health s key).1.status = "UNKNOWN")
      · rw [if_pos hc]
        apply healthInv_put _ _ (healthInv_ensure s key h)
        intro hfc
        exfalso
        have hst := HIgood_ensure s key h hfc
        rcases hc.2 with h1 | h1 <;> rw [hst] at h1 <;> exact absurd h1 (by decide)
      · rw [if_neg hc]
        exact healthInv_ensure s key h

theorem healthInv_refresh_core (provs : AList Tariff)
    (only : Option (List String)) (now : Int) (s : OpsState) (h : HealthInv s) :
    HealthInv (refresh_core provs only now s).st := by
  unfold refresh_core
  apply foldl_inv _ (fun acc : RefreshAcc => HealthInv acc.st)
    (fun a x ha => healthInv_refresh_step _ _ _ a x ha)
  exact healthInv_of_eq (by simp) h

theorem healthInv_refresh (provs : AList Tariff) (only : Option (List String))
    (now : Int) (s : OpsState) (h : HealthInv s) :
    HealthInv (refresh_all_providers provs only now s).2 := by
  have hsweep : HealthInv (apply_freshness_sla provs now
      (refresh_core provs only now s).st) := by
    unfold apply_freshness_sla
    exact foldl_inv _ HealthInv (fun a x ha => healthInv_sweep_step now a x ha)
      _ _ (healthInv_refresh_core provs only now s h)
  unfold refresh_all_providers
  dsimp only
  intro p hp
  simp only [append_run_providers] at hp
  exact hsweep p hp

theorem HIgood_mark (pk : String) (success : Bool) (note : Option String)
    (now : Int) (s : OpsState) (h : HealthInv s) :
    HIgood (mark_provider_checked pk success note now s).1 := by
  have h0 := HIgood_ensure s pk h
  unfold mark_provider_checked
  dsimp only
  have hcore : ∀ ph2 : ProviderHealth, HIgood ph2 → HIgood
      (match note with
       | some n => if n = "" then ph2
                   else { ph2 with notes := ph2.notes ++ [n] }
       | none => ph2) := by
    intro ph2 h2
    cases note with
    | none => exact h2
    | some n =>
        dsimp only
        by_cases hn : n = ""
        · rw [if_pos hn]
          exact h2
        · rw [if_neg hn]
          intro hfc
          exact h2 hfc
  apply hcore
  by_cases hs : success = true
  · rw [if_pos hs]
    intro hfc
    have h0 : ¬ NONCOMMUNICATION_THRESHOLD ≤ 0 := by decide
    exact absurd hfc h0
  · rw [if_neg hs]
    by_cases hesc : NONCOMMUNICATION_THRESHOLD ≤
        (ensure_health s pk).1.failure_count + 1
    · rw [if_pos hesc]
      intro _
      rfl
    · rw [if_neg hesc]
      intro hfc
      exact absurd hfc hesc

theorem mark_snd (pk : String) (success : Bool) (note : Option String)
    (now : Int) (s : OpsState) :
    (mark_provider_checked pk success note now s).2 =
      put_health (ensure_health s pk).2 (mark_provider_checked pk success note now s).1 := by
  unfold mark_provider_checked
  rfl

theorem healthInv_applyOp (provs : AList Tariff) (s : OpsState) (op : Op)
    (h : HealthInv s) : HealthInv (applyOp provs s op) := by
  cases op with
  | refresh only now => exact healthInv_refresh provs only now s h
  | mark pk success note now =>
      show HealthInv (mark_provider_checked pk success note now s).2
      rw [mark_snd]
      exact healthInv_put _ _ (healthInv_ensure s pk h) (HIgood_mark pk success note now s h)
  | updateInc iid status note now =>
      exact healthInv_of_eq (update_incident_frame s iid status note now).1 h
  | setSched e iv now =>
      exact healthInv_of_eq (set_scheduler_frame e iv now s).1 h
  | maybeRun now =>
      show HealthInv (maybe_run_scheduled_refresh provs now s).2
      unfold maybe_run_scheduled_refresh
      dsimp only
      cases hen : s.scheduler.enabled with
      | false =>
          simp only [hen, Bool.not_false, if_true]
          exact h
      | true =>
          simp only [hen, Bool.not_true, Bool.false_eq_true, if_false]
          cases hdue : s.scheduler.next_run_due_at with
          | none => exact h
          | some due =>
              dsimp only
              by_cases hd : due ≤ now
              · rw [if_pos hd]
                exact healthInv_of_eq rfl (healthInv_refresh provs none now s h)
              · rw [if_neg hd]
                exact h

theorem healthInv_reachable {provs : AList Tariff} {s : OpsState}
    (h : Reachable provs s) : HealthInv s := by
  obtain ⟨ops, rfl⟩ := h
  unfold runOps
  apply foldl_inv _ HealthInv (fun a x ha => healthInv_applyOp provs a x ha)
  intro p hp
  exact absurd hp (by simp [initState])

/-- C1.  For every persisted state reachable from the initialized document by
any sequence of `refresh_all_providers`, `mark_provider_checked`,
`update_incident`, `set_scheduler_enabled` and `maybe_run_scheduled_refresh`
calls, every stored `ProviderHealth` record with
`failure_count >= NONCOMMUNICATION_THRESHOLD` has status
`NON_COMMUNICATING` — the escalation overrides any milder status computed in
the same pass. -/
theorem C1_noncomm_escalation_invariant (provs : AList Tariff) (s : OpsState)
    (h : Reachable provs s) (k : String) (ph : ProviderHealth)
    (hlk : alookup s.providers k = some ph)
    (hfc : NONCOMMUNICATION_THRESHOLD ≤ ph.failure_count) :
    ph.status = "NON_COMMUNICATING" :=
  healthInv_reachable h _ (alookup_mem hlk) hfc

/-- A one-provider placeholder table driving the C1 witness. -/
def tariffP : Tariff :=
  { network_charge := 0, sewerage_charge := 0, usage_charges := (0, none)
    name := "P", region := "r", notes := "" }

def tblC1 : AList Tariff := [("P", tariffP)]

def opsC1 : List Op := [.refresh none 0, .refresh none 1, .refresh none 2]

def sC1 : OpsState := runOps tblC1 initState opsC1

def phC1 : ProviderHealth :=
  { provider_key := "P", last_checked := some 2, last_success := none
    failure_count := 3, status := "NON_COMMUNICATING"
    notes := ["Placeholder tariffs; needs curation."] }

unseal Rat.add Rat.mul Rat.sub Rat.inv Rat.ofScientific in
/-- Witness for C1: after three refreshes of an all-zero (placeholder)
provider the stored record has `failure_count = 3` and the invariant applies
to it. -/
theorem C1_noncomm_escalation_invariant_witness :
    Reachable tblC1 sC1 ∧
    alookup sC1.providers "P" = some phC1 ∧
    NONCOMMUNICATION_THRESHOLD ≤ phC1.failure_count ∧
    phC1.status = "NON_COMMUNICATING" :=
  ⟨⟨opsC1, rfl⟩, by decide, by decide,
    C1_noncomm_escalation_invariant tblC1 sC1 ⟨opsC1, rfl⟩ "P" phC1
      (by decide) (by decide)⟩


/-! ## Characterizing the freshness sweep (claim C6) -/

theorem wfprov_sweep_step (now : Int) (s : OpsState) (key : String)
    (h : WFprov s) : WFprov (sweep_step now s key) := by
  simp only [sweep_step]
  cases hlc : (ensure_health s key).1.last_checked with
  | none => exact wfprov_ensure s key h
  | some tc =>
      dsimp only
      by_cases hc : FRESHNESS_SLA_DAYS < ageDays now tc ∧
        ((ensure_health s key).1.status = "OK" ∨ (ensure_health s key).1.status = "UNKNOWN")
      · rw [if_pos hc]
        exact wfprov_put _ _ (wfprov_ensure s key h)
      · rw [if_neg hc]
        exact wfprov_ensure s key h

theorem put_health_lookup_at (s : OpsState) (ph : ProviderHealth) (k : String)
    (h : ph.provider_key = k) : alookup (put_health s ph).providers k = some ph := by
  rw [← h]
  exact put_health_lookup_self s ph

theorem sweep_step_lookup_self (now : Int) (s : OpsState) (key : String)
    (hwf : WFprov s) :
    alookup (sweep_step now s key).providers key =
      some (sweep_one (ensure_health s key).1 now) := by
  have hkey := ensure_health_key s key hwf
  simp only [sweep_step, sweep_one]
  cases hlc : (ensure_health s key).1.last_checked with
  | none => exact ensure_health_lookup_self s key
  | some tc =>
      dsimp only
      by_cases hc : FRESHNESS_SLA_DAYS < ageDays now tc ∧
        ((ensure_health s key).1.status = "OK" ∨ (ensure_health s key).1.status = "UNKNOWN")
      · simp only [if_pos hc]
        apply put_health_lookup_at
        exact hkey
      · simp only [if_neg hc]
        exact ensure_health_lookup_self s key

theorem sweep_step_lookup_ne (now : Int) (s : OpsState) (key k : String)
    (hk : key ≠ k) (hwf : WFprov s) :
    alookup (sweep_step now s key).providers k = alookup s.providers k := by
  have hkey := ensure_health_key s key hwf
  simp only [sweep_step]
  cases hlc : (ensure_health s key).1.last_checked with
  | none => exact ensure_health_lookup_ne s key k hk
  | some tc =>
      dsimp only
      by_cases hc : FRESHNESS_SLA_DAYS < ageDays now tc ∧
        ((ensure_health s key).1.status = "OK" ∨ (ensure_health s key).1.status = "UNKNOWN")
      · simp only [if_pos hc]
        rw [put_health_lookup_ne]
        · exact ensure_health_lookup_ne s key k hk
        · intro he
          exact hk (hkey.symm.trans he)
      · simp only [if_neg hc]
        exact ensure_health_lookup_ne s key k hk

theorem wfprov_sweep_fold (now : Int) (keys : List String) (s : OpsState)
    (h : WFprov s) : WFprov (keys.foldl (sweep_step now) s) :=
  foldl_inv _ WFprov (fun a x ha => wfprov_sweep_step now a x ha) keys s h

theorem sweep_fold_lookup_ne (now : Int) (keys : List String) (s : OpsState)
    (k : String) (hk : ¬ k ∈ keys) (hwf : WFprov s) :
    alookup (keys.foldl (sweep_step now) s).providers k = alookup s.providers k := by
  induction keys generalizing s with
  | nil => rfl
  | cons key rest ih =>
      rw [List.foldl_cons]
      have h1 : ¬ key = k := fun he => hk (he ▸ List.mem_cons_self _ _)
      rw [ih (sweep_step now s key) (fun hm => hk (List.mem_cons_of_mem _ hm))
        (wfprov_sweep_step now s key hwf)]
      exact sweep_step_lookup_ne now s key k h1 hwf

theorem sweep_fold_lookup_self (now : Int) (keys : List String) (s : OpsState)
    (k : String) (hnd : keys.Nodup) (hk : k ∈ keys) (hwf : WFprov s) :
    alookup (keys.foldl (sweep_step now) s).providers k =
      some (sweep_one (ensure_health s k).1 now) := by
  induction keys generalizing s with
  | nil => exact absurd hk (List.not_mem_nil k)
  | cons key rest ih =>
      rw [List.foldl_cons]
      by_cases he : key = k
      · subst he
        have hnr : ¬ key ∈ rest := (List.nodup_cons.mp hnd).1
        rw [sweep_fold_lookup_ne now rest (sweep_step now s key) key hnr
          (wfprov_sweep_step now s key hwf)]
        exact sweep_step_lookup_self now s key hwf
      · have hkr : k ∈ rest := by
          rcases List.mem_cons.mp hk with h1 | h1
          · exact absurd h1.symm he
          · exact h1
        have hwf1 := wfprov_sweep_step now s key hwf
        rw [ih (sweep_step now s key) (List.nodup_cons.mp hnd).2 hkr hwf1]
        have hsame : (ensure_health (sweep_step now s key) k).1 = (ensure_health s k).1 := by
          rw [ensure_health_fst, ensure_health_fst,
            sweep_step_lookup_ne now s key k he hwf]
        rw [hsame]

/-- The sweep over a whole provider table, at a key of the table. -/
theorem sweep_lookup (provs : AList Tariff) (now : Int) (s : OpsState)
    (k : String) (hnd : (provs.map Prod.fst).Nodup) (hk : k ∈ provs.map Prod.fst)
    (hwf : WFprov s) :
    alookup (apply_freshness_sla provs now s).providers k =
      some (sweep_one (ensure_health s k).1 now) :=
  sweep_fold_lookup_self now (provs.map Prod.fst) s k hnd hk hwf

/-- C6.  The freshness sweep, run over all providers of the table, marks a
provider STALE exactly when its `last_checked` age exceeds
`FRESHNESS_SLA_DAYS` and its current status is OK or UNKNOWN; under the same
staleness condition a provider in ERROR, INCOMPLETE or NON_COMMUNICATING is
left unchanged; and a provider with no `last_checked` timestamp is left
untouched. -/
theorem C6_freshness_sweep (provs : AList Tariff) (now : Int) (s : OpsState)
    (hwf : WFprov s) (hnd : (provs.map Prod.fst).Nodup) (k : String)
    (hk : k ∈ provs.map Prod.fst) :
    (∀ tc, (ensure_health s k).1.last_checked = some tc →
      FRESHNESS_SLA_DAYS < ageDays now tc →
      ((ensure_health s k).1.status = "OK" ∨ (ensure_health s k).1.status = "UNKNOWN") →
      alookup (apply_freshness_sla provs now s).providers k =
        some (mark_stale (ensure_health s k).1 (ageDays now tc))) ∧
    (∀ tc, (ensure_health s k).1.last_checked = some tc →
      FRESHNESS_SLA_DAYS < ageDays now tc →
      ((ensure_health s k).1.status = "ERROR" ∨
       (ensure_health s k).1.status = "INCOMPLETE" ∨
       (ensure_health s k).1.status = "NON_COMMUNICATING") →
      alookup (apply_freshness_sla provs now s).providers k =
        some (ensure_health s k).1) ∧
    ((ensure_health s k).1.last_checked = none →
      alookup (apply_freshness_sla provs now s).providers k =
        some (ensure_health s k).1) := by
  have hchar := sweep_lookup provs now s k hnd hk hwf
  refine ⟨?_, ?_, ?_⟩
  · intro tc hlc hage hst
    rw [hchar]
    simp only [sweep_one, hlc]
    rw [if_pos ⟨hage, hst⟩]
  · intro tc hlc hage hst
    rw [hchar]
    simp only [sweep_one, hlc]
    rw [if_neg]
    intro hcond
    rcases hcond.2 with h1 | h1 <;>
      rcases hst with h2 | h2 | h2 <;> rw [h2] at h1 <;> exact absurd h1 (by decide)
  · intro hlc
    rw [hchar]
    simp only [sweep_one, hlc]

/-- Concrete scenario for the C6 witness: one stale-OK, one stale-ERROR and
one never-checked provider. -/
def phA6 : ProviderHealth :=
  { provider_key := "A", last_checked := some 0, last_success := some 0,
    failure_count := 0, status := "OK", notes := [] }

def phB6 : ProviderHealth :=
  { provider_key := "B", last_checked := some 0, last_success := none,
    failure_count := 1, status := "ERROR", notes := [] }

def phC6 : ProviderHealth := { provider_key := "C" }

def s6 : OpsState :=
  { initState with providers := [("A", phA6), ("B", phB6), ("C", phC6)] }

def tbl6 : AList Tariff := [("A", tariffP), ("B", tariffP), ("C", tariffP)]

def now6 : Int := 31 * 1440

/-- Witness for C6: at 31 days of age the OK provider goes STALE, the ERROR
provider is unchanged, and the never-checked provider is untouched. -/
theorem C6_freshness_sweep_witness :
    WFprov s6 ∧ (tbl6.map Prod.fst).Nodup ∧
    alookup (apply_freshness_sla tbl6 now6 s6).providers "A" =
      some (mark_stale phA6 31) ∧
    alookup (apply_freshness_sla tbl6 now6 s6).providers "B" = some phB6 ∧
    alookup (apply_freshness_sla tbl6 now6 s6).providers "C" = some phC6 := by
  have hwf : WFprov s6 := by
    intro p hp
    simp only [s6, initState, List.mem_cons, List.not_mem_nil, or_false] at hp
    rcases hp with rfl | rfl | rfl <;> rfl
  have hnd : (tbl6.map Prod.fst).Nodup := by decide
  refine ⟨hwf, hnd, ?_, ?_, ?_⟩
  · have h := (C6_freshness_sweep tbl6 now6 s6 hwf hnd "A" (by decide)).1 0
      (by decide) (by decide) (Or.inl (by decide))
    rw [h]
    rfl
  · have h := (C6_freshness_sweep tbl6 now6 s6 hwf hnd "B" (by decide)).2.1 0
      (by decide) (by decide) (Or.inl (by decide))
    rw [h]
    rfl
  · have h := (C6_freshness_sweep tbl6 now6 s6 hwf hnd "C" (by decide)).2.2 (by decide)
    rw [h]
    rfl


/-! ## Validation characterization (claim C4) -/

/-- C4.  For a tariff whose monetary fields are all exactly zero,
`validate_provider` returns exactly one issue, with code PLACEHOLDER and
severity ERROR, and nothing else (the remaining checks are skipped); for any
other tariff no PLACEHOLDER issue appears and the negative-fixed,
negative-rate, monotonicity and outlier checks each contribute exactly when
their own condition holds. -/
theorem C4_validate_placeholder_short_circuit (k : String) (t : Tariff) :
    (is_placeholder t = true →
      validate_provider k t =
        [{ provider_key := k, code := "PLACEHOLDER",
           message := "Provider has placeholder (zero) tariffs.",
           severity := "ERROR", context := [] }]) ∧
    (is_placeholder t = false →
      (∀ i ∈ validate_provider k t, ¬ i.code = "PLACEHOLDER") ∧
      ((∃ i ∈ validate_provider k t, i.code = "NEGATIVE_FIXED" ∧ i.severity = "ERROR") ↔
        (t.network_charge < 0 ∨ t.sewerage_charge < 0)) ∧
      ((∃ i ∈ validate_provider k t, i.code = "NEGATIVE_RATE" ∧ i.severity = "ERROR") ↔
        (t.usage_charges.1 < 0 ∨ ∃ v, t.usage_charges.2 = some v ∧ v < 0)) ∧
      ((∃ i ∈ validate_provider k t, i.code = "MONOTONICITY" ∧ i.severity = "WARN") ↔
        (∃ v, t.usage_charges.2 = some v ∧ v < t.usage_charges.1)) ∧
      ((∃ i ∈ validate_provider k t, i.code = "OUTLIER_RATE" ∧ i.severity = "WARN") ↔
        (t.usage_charges.1 > 20 ∨ ∃ v, t.usage_charges.2 = some v ∧ v > 25))) := by
  constructor
  · intro hp
    simp [validate_provider, hp]
  · intro hp
    by_cases h1 : t.network_charge < 0 ∨ t.sewerage_charge < 0 <;>
    by_cases h2 : t.usage_charges.1 < 0 ∨ (∃ v, t.usage_charges.2 = some v ∧ v < 0) <;>
    by_cases h3 : ∃ v, t.usage_charges.2 = some v ∧ v < t.usage_charges.1 <;>
    by_cases h4 : t.usage_charges.1 > 20 ∨ (∃ v, t.usage_charges.2 = some v ∧ v > 25) <;>
      simp [validate_provider, hp, h1, h2, h3, h4]

/-- A placeholder tariff and a tariff failing three checks at once, driving
the C4 witness. -/
def tBad4 : Tariff :=
  { network_charge := -1, sewerage_charge := 0, usage_charges := (21, some 1)
    name := "B", region := "r", notes := "" }

unseal Rat.add Rat.mul Rat.sub Rat.inv Rat.ofScientific in
/-- Witness for C4: a concrete placeholder tariff yields the single
PLACEHOLDER/ERROR issue, and a concrete bad tariff accumulates
NEGATIVE_FIXED, MONOTONICITY and OUTLIER_RATE but not NEGATIVE_RATE. -/
theorem C4_validate_placeholder_short_circuit_witness :
    validate_provider "P" tariffP =
      [{ provider_key := "P", code := "PLACEHOLDER",
         message := "Provider has placeholder (zero) tariffs.",
         severity := "ERROR", context := [] }] ∧
    (∀ i ∈ validate_provider "B" tBad4, ¬ i.code = "PLACEHOLDER") ∧
    (∃ i ∈ validate_provider "B" tBad4, i.code = "NEGATIVE_FIXED" ∧ i.severity = "ERROR") ∧
    ¬ (∃ i ∈ validate_provider "B" tBad4, i.code = "NEGATIVE_RATE" ∧ i.severity = "ERROR") ∧
    (∃ i ∈ validate_provider "B" tBad4, i.code = "MONOTONICITY" ∧ i.severity = "WARN") ∧
    (∃ i ∈ validate_provider "B" tBad4, i.code = "OUTLIER_RATE" ∧ i.severity = "WARN") := by
  have hp : is_placeholder tariffP = true := by decide
  have hb : is_placeholder tBad4 = false := by decide
  have h1 := (C4_validate_placeholder_short_circuit "P" tariffP).1 hp
  have h2 := (C4_validate_placeholder_short_circuit "B" tBad4).2 hb
  refine ⟨h1, h2.1, ?_, ?_, ?_, ?_⟩
  · exact h2.2.1.mpr (Or.inl (by decide))
  · intro hx
    rcases h2.2.2.1.mp hx with h | ⟨v, hv, hneg⟩
    · exact absurd h (by decide)
    · rw [show v = 1 from by injection (hv.symm.trans (rfl : tBad4.usage_charges.2 = some 1))] at hneg
      exact absurd hneg (by decide)
  · exact h2.2.2.2.1.mpr ⟨1, rfl, by decide⟩
  · exact h2.2.2.2.2.mpr (Or.inl (by decide))

/-! ## Drift comparison totality (claim C8) -/

/-- C8 (amended).  The drift comparison never raises and is characterized by:
no prior snapshot (or a falsy empty one) gives no issue; a missing, malformed,
zero or NEGATIVE prior estimate gives no issue; a missing or malformed current
estimate gives no issue; and with a strictly positive prior estimate and a
numeric current estimate it returns the WARN DRIFT issue carrying prev, cur
and pct exactly when |pct| >= DRIFT_ALERT_PCT. -/
theorem C8_drift_total (prev : Option (AList JVal)) (cur : AList JVal) :
    (prev = none → compare_drift prev cur = none) ∧
    (∀ p, prev = some p → p = [] → compare_drift prev cur = none) ∧
    (∀ p, prev = some p → getNum p "est160" = none → compare_drift prev cur = none) ∧
    (∀ p ep, prev = some p → getNum p "est160" = some ep → ep ≤ 0 →
      compare_drift prev cur = none) ∧
    (∀ p ep, prev = some p → getNum p "est160" = some ep →
      getNum cur "est160" = none → compare_drift prev cur = none) ∧
    (∀ p ep ec, prev = some p → ¬ p = [] → getNum p "est160" = some ep → 0 < ep →
      getNum cur "est160" = some ec →
      compare_drift prev cur =
        (if DRIFT_ALERT_PCT ≤ |(ec - ep) / ep * 100| then
          some (drift_issue ep ec) else none)) := by
  refine ⟨?_, ?_, ?_, ?_, ?_, ?_⟩
  · intro h
    rw [h]
    rfl
  · intro p hp hnil
    rw [hp, hnil]
    rfl
  · intro p hp hmiss
    rw [hp]
    unfold compare_drift
    dsimp only
    by_cases hnil : p = []
    · rw [if_pos hnil]
    · rw [if_neg hnil, hmiss]
  · intro p ep hp hep hle
    rw [hp]
    unfold compare_drift
    dsimp only
    by_cases hnil : p = []
    · rw [if_pos hnil]
    · rw [if_neg hnil, hep]
      cases getNum cur "est160" with
      | none => rfl
      | some ec =>
          dsimp only
          rw [if_neg (not_lt.mpr hle)]
  · intro p ep hp hep hcur
    rw [hp]
    unfold compare_drift
    dsimp only
    by_cases hnil : p = []
    · rw [if_pos hnil]
    · rw [if_neg hnil, hep, hcur]
  · intro p ep ec hp hnil hep hpos hec
    rw [hp]
    unfold compare_drift
    dsimp only
    rw [if_neg hnil, hep, hec]
    dsimp only
    rw [if_pos hpos]

/-- The concrete snapshots of the C8 counterexample: a negative prior
estimate with a +100 current one, a -200% change. -/
def prevNeg : AList JVal := [("est160", .num (-100))]

def curNeg : AList JVal := [("est160", .num 100)]

unseal Rat.add Rat.mul Rat.sub Rat.inv Rat.ofScientific in
/-- Counterexample to C8 as stated: the prior snapshot exists and its
benchmark estimate is a well-formed non-zero number (-100), the percentage
change (-200%) is far beyond `DRIFT_ALERT_PCT`, yet `_compare_drift` returns
no issue — the `est_prev > 0` guard also swallows negative priors, which the
claim's wording ("zero, missing, or malformed") does not allow for. -/
theorem C8_drift_total_counterexample :
    compare_drift (some prevNeg) curNeg = none ∧
    getNum prevNeg "est160" = some (-100) ∧
    ¬ ((-100 : ℚ) = 0) ∧
    getNum curNeg "est160" = some 100 ∧
    DRIFT_ALERT_PCT ≤ |((100 : ℚ) - (-100)) / (-100) * 100| := by
  refine ⟨by decide, by decide, by decide, by decide, by decide⟩

/-! ## The drift snapshot ignores provider-specific thresholds (claim C10) -/

/-- The SAWATER tariff record of the static dataset. -/
def sawaterT : Tariff :=
  { network_charge := 329.20, sewerage_charge := 376.00
    usage_charges := (2.357, some 3.365)
    name := "SA Water", region := "Metropolitan Adelaide"
    notes := "Residential tiers: ~0-140 kL $2.357; ~140-520 $3.365; >520 $3.646 (omitted). Sewerage simplified." }

unseal Rat.add Rat.mul Rat.sub Rat.inv Rat.ofScientific in
/-- C10.  The snapshot's benchmark bill `est160` is
`calculate_bill t DRIFT_BENCHMARK_KL none`, and a threshold-less
`calculate_bill` falls back to `provider_threshold_keyless`, which ignores
the provider and always returns `BLOCK_THRESHOLD_KL`; concretely for
SAWATER (provider threshold 140 < the 160 kL benchmark) the snapshot value
differs from the bill computed with `provider_threshold "SAWATER"`. -/
theorem C10_snapshot_default_threshold :
    (∀ t : Tariff, provider_threshold_keyless t = BLOCK_THRESHOLD_KL) ∧
    (∀ t : Tariff, getNum (snapshot_for_drift t) "est160" =
      some (calculate_bill t DRIFT_BENCHMARK_KL none)) ∧
    alookup PROVIDERS "SAWATER" = some sawaterT ∧
    provider_threshold "SAWATER" = 140 ∧
    provider_threshold "SAWATER" < DRIFT_BENCHMARK_KL ∧
    calculate_bill sawaterT DRIFT_BENCHMARK_KL none = 108232 / 100 ∧
    calculate_bill sawaterT DRIFT_BENCHMARK_KL (some (provider_threshold "SAWATER")) =
      110248 / 100 ∧
    ¬ (calculate_bill sawaterT DRIFT_BENCHMARK_KL none =
       calculate_bill sawaterT DRIFT_BENCHMARK_KL (some (provider_threshold "SAWATER"))) := by
  refine ⟨fun t => rfl, fun t => rfl, by decide, by decide, by decide,
    by decide, by decide, by decide⟩


/-! ## Scheduler due-check (claim C7) -/

/-- When the due time is absent or in the future (or the scheduler is
disabled), the due-check does nothing. -/
theorem maybe_run_noop (provs : AList Tariff) (now2 : Int) (s2 : OpsState)
    (hdue : ∀ d, s2.scheduler.next_run_due_at = some d → ¬ d ≤ now2) :
    maybe_run_scheduled_refresh provs now2 s2 = (none, s2) := by
  unfold maybe_run_scheduled_refresh
  cases hen : s2.scheduler.enabled with
  | false => simp [hen]
  | true =>
      simp only [hen, Bool.not_true, Bool.false_eq_true, if_false]
      cases hd : s2.scheduler.next_run_due_at with
      | none => rfl
      | some d =>
          dsimp only
          rw [if_neg (hdue d hd)]

theorem next_due_pos (last : Option Int) (m : Int) (now : Int) (h : 0 < m) :
    next_due last m now = some (last.getD now + m) := by
  unfold next_due
  rw [if_neg (by omega)]

/-- C7.  `maybe_run_scheduled_refresh` is a no-op returning nothing when the
scheduler is disabled or no due time is set; when enabled with a due time at
or before `now` (and a positive interval) it returns exactly the result of
one full refresh, sets `last_run_at := now`, advances `next_run_due_at` to
`now + interval_minutes`, and an immediately following second call (before
the new due time) is a no-op. -/
theorem C7_scheduler_due_check (provs : AList Tariff) (s : OpsState)
    (now now2 : Int) :
    (s.scheduler.enabled = false → maybe_run_scheduled_refresh provs now s = (none, s)) ∧
    (s.scheduler.next_run_due_at = none → maybe_run_scheduled_refresh provs now s = (none, s)) ∧
    (∀ due, s.scheduler.enabled = true → s.scheduler.next_run_due_at = some due →
      due ≤ now → 0 < s.scheduler.interval_minutes →
      (maybe_run_scheduled_refresh provs now s).1 =
        some (refresh_all_providers provs none now s).1 ∧
      (maybe_run_scheduled_refresh provs now s).2.scheduler.enabled = true ∧
      (maybe_run_scheduled_refresh provs now s).2.scheduler.last_run_at = some now ∧
      (maybe_run_scheduled_refresh provs now s).2.scheduler.next_run_due_at =
        some (now + s.scheduler.interval_minutes) ∧
      (now2 < now + s.scheduler.interval_minutes →
        maybe_run_scheduled_refresh provs now2 (maybe_run_scheduled_refresh provs now s).2 =
          (none, (maybe_run_scheduled_refresh provs now s).2))) := by
  refine ⟨?_, ?_, ?_⟩
  · intro he
    unfold maybe_run_scheduled_refresh
    simp [he]
  · intro hd
    unfold maybe_run_scheduled_refresh
    cases he : s.scheduler.enabled <;> simp [he, hd]
  · intro due he hdue hle hpos
    have hs1 := refresh_scheduler provs none now s
    have hrun : maybe_run_scheduled_refresh provs now s =
        (some (refresh_all_providers provs none now s).1,
          { (refresh_all_providers provs none now s).2 with scheduler :=
            { (refresh_all_providers provs none now s).2.scheduler with
              next_run_due_at :=
                next_due (refresh_all_providers provs none now s).2.scheduler.last_run_at
                  (refresh_all_providers provs none now s).2.scheduler.interval_minutes
                  now } }) := by
      unfold maybe_run_scheduled_refresh
      simp only [he, Bool.not_true, Bool.false_eq_true, if_false, hdue]
      try dsimp only
      rw [if_pos hle]
    have hsched : (maybe_run_scheduled_refresh provs now s).2.scheduler.enabled =
          s.scheduler.enabled ∧
        (maybe_run_scheduled_refresh provs now s).2.scheduler.interval_minutes =
          s.scheduler.interval_minutes ∧
        (maybe_run_scheduled_refresh provs now s).2.scheduler.last_run_at = some now ∧
        (maybe_run_scheduled_refresh provs now s).2.scheduler.next_run_due_at =
          some (now + s.scheduler.interval_minutes) := by
      rw [hrun]
      try dsimp only
      rw [hs1]
      unfold sched_after
      try dsimp only
      refine ⟨rfl, rfl, rfl, ?_⟩
      rw [next_due_pos _ _ _ hpos]
      rfl
    refine ⟨by rw [hrun], hsched.1.trans he, hsched.2.2.1, hsched.2.2.2, ?_⟩
    intro hlt
    apply maybe_run_noop
    intro d hd
    rw [hsched.2.2.2] at hd
    injection hd with h
    omega

/-- A concrete state driving the C7 witness: enabled scheduler, interval 60,
due at time 0, called at minute 61. -/
def s7 : OpsState :=
  { initState with scheduler :=
      { enabled := true, interval_minutes := 60, last_run_at := some 0,
        next_run_due_at := some 60, history := [] } }

unseal Rat.add Rat.mul Rat.sub Rat.inv Rat.ofScientific in
/-- Witness for C7: with `interval_minutes = 60` and the due time one minute
past, the check fires one refresh, advances the due time to minute 121, and
an immediate second call at the same minute is a no-op. -/
theorem C7_scheduler_due_check_witness :
    (maybe_run_scheduled_refresh tblC1 61 s7).1 =
      some (refresh_all_providers tblC1 none 61 s7).1 ∧
    (maybe_run_scheduled_refresh tblC1 61 s7).2.scheduler.last_run_at = some 61 ∧
    (maybe_run_scheduled_refresh tblC1 61 s7).2.scheduler.next_run_due_at = some 121 ∧
    maybe_run_scheduled_refresh tblC1 61 (maybe_run_scheduled_refresh tblC1 61 s7).2 =
      (none, (maybe_run_scheduled_refresh tblC1 61 s7).2) := by
  have h := (C7_scheduler_due_check tblC1 s7 61 61).2.2 60 rfl rfl (by decide) (by decide)
  exact ⟨h.1, h.2.2.1, h.2.2.2.1, h.2.2.2.2 (by decide)⟩

/-! ## `update_incident` error handling (claim C9) -/

theorem update_incident_list_none (iid : Int) (st : String)
    (note : Option String) (now : Int) :
    ∀ incs : List Incident, (∀ inc ∈ incs, ¬ inc.id = iid) →
      update_incident_list incs iid st note now = none := by
  intro incs
  induction incs with
  | nil => intro _; rfl
  | cons inc rest ih =>
      intro h
      unfold update_incident_list
      rw [if_neg (h inc (List.mem_cons_self _ _)),
        ih (fun j hj => h j (List.mem_cons_of_mem _ hj))]

theorem update_incident_list_found (iid : Int) (st : String)
    (note : Option String) (now : Int) :
    ∀ (pre post : List Incident) (inc : Incident), (∀ j ∈ pre, ¬ j.id = iid) →
      inc.id = iid →
      update_incident_list (pre ++ inc :: post) iid st note now =
        some (pre ++ upd_inc inc st note now :: post) := by
  intro pre
  induction pre with
  | nil =>
      intro post inc _ hid
      simp only [List.nil_append]
      unfold update_incident_list
      rw [if_pos hid]
  | cons j rest ih =>
      intro post inc hpre hid
      simp only [List.cons_append]
      unfold update_incident_list
      rw [if_neg (hpre j (List.mem_cons_self _ _)),
        ih post inc (fun x hx => hpre x (List.mem_cons_of_mem _ hx)) hid]

theorem alookup_filter_not_in {α : Type} (a : AList α) (k : String) :
    ∀ b : AList α, alookup a k = none →
      alookup (b.filter (fun q => (alookup a q.1).isNone)) k = alookup b k := by
  intro b
  induction b with
  | nil => intro _; rfl
  | cons q rest ih =>
      intro ha
      by_cases hq : q.1 = k
      · have hkeep : (alookup a q.1).isNone = true := by rw [hq, ha]; rfl
        have hfc : List.filter (fun q : String × α => (alookup a q.1).isNone) (q :: rest) =
            q :: List.filter (fun q => (alookup a q.1).isNone) rest :=
          List.filter_cons_of_pos hkeep
        rw [hfc]
        simp [alookup, hq, ih ha]
      · by_cases hkeep : (alookup a q.1).isNone = true
        · have hfc : List.filter (fun q : String × α => (alookup a q.1).isNone) (q :: rest) =
              q :: List.filter (fun q => (alookup a q.1).isNone) rest :=
            List.filter_cons_of_pos hkeep
          rw [hfc]
          simp [alookup, hq, ih ha]
        · have hfc : List.filter (fun q : String × α => (alookup a q.1).isNone) (q :: rest) =
              List.filter (fun q => (alookup a q.1).isNone) rest :=
            List.filter_cons_of_neg (by simpa using hkeep)
          rw [hfc, ih ha]
          simp [alookup, hq]

theorem alookup_map_override {α : Type} (a b : AList α) (k : String) :
    alookup (a.map (fun p => match alookup b p.1 with
        | some v => (p.1, v)
        | none => p)) k =
      match alookup a k with
      | none => none
      | some v => match alookup b k with
        | some w => some w
        | none => some v := by
  induction a with
  | nil => rfl
  | cons p rest ih =>
      by_cases hp : p.1 = k
      · cases hb : alookup b p.1 <;>
          simp [alookup, hp, hb, hp ▸ hb]
      · cases hb : alookup b p.1 <;>
          simp [alookup, hp, hb, ih]

/-- Dict-merge semantics: a key of `b` wins, otherwise `a`'s binding. -/
theorem alookup_mergeA {α : Type} (a b : AList α) (k : String) :
    alookup (mergeA a b) k =
      match alookup b k with
      | some w => some w
      | none => alookup a k := by
  unfold mergeA
  rw [alookup_append, alookup_map_override a b k]
  cases ha : alookup a k with
  | none =>
      dsimp only
      rw [alookup_filter_not_in a k b ha]
      cases alookup b k <;> rfl
  | some v =>
      cases alookup b k <;> rfl

/-- C9.  `update_incident` on an id absent from the incident list returns
`False` without raising, creates nothing and leaves the state untouched (no
save happens on that path); on a present id it rewrites the first matching
incident — status set to the supplied value, `updated_at` advanced to now, a
supplied non-empty note merged into `details` under `"note"` (overwriting a
previous note) — keeps every other incident, persists, and returns `True`. -/
theorem C9_update_incident (s : OpsState) (iid : Int) (st : String)
    (note : Option String) (now : Int) :
    ((∀ inc ∈ s.incidents, ¬ inc.id = iid) →
      update_incident s iid st note now = (false, s)) ∧
    (∀ pre inc post, s.incidents = pre ++ inc :: post →
      (∀ j ∈ pre, ¬ j.id = iid) → inc.id = iid →
      update_incident s iid st note now =
        (true, { s with incidents := pre ++ upd_inc inc st note now :: post }) ∧
      (upd_inc inc st note now).status = st ∧
      (upd_inc inc st note now).updated_at = now ∧
      (∀ n, note = some n → ¬ n = "" →
        (upd_inc inc st note now).details = mergeA inc.details [("note", .str n)] ∧
        alookup (upd_inc inc st note now).details "note" = some (.str n)) ∧
      (note = none → (upd_inc inc st note now).details = inc.details) ∧
      (note = some "" → (upd_inc inc st note now).details = inc.details)) := by
  constructor
  · intro habs
    unfold update_incident
    rw [update_incident_list_none iid st note now s.incidents habs]
  · intro pre inc post hsp hpre hid
    refine ⟨?_, ?_, ?_, ?_, ?_, ?_⟩
    · unfold update_incident
      rw [hsp, update_incident_list_found iid st note now pre post inc hpre hid]
    · unfold upd_inc
      cases note with
      | none => rfl
      | some n =>
          dsimp only
          by_cases hn : n = ""
          · rw [if_pos hn]
          · rw [if_neg hn]
    · unfold upd_inc
      cases note with
      | none => rfl
      | some n =>
          dsimp only
          by_cases hn : n = ""
          · rw [if_pos hn]
          · rw [if_neg hn]
    · intro n hn hne
      subst hn
      unfold upd_inc
      dsimp only
      rw [if_neg hne]
      refine ⟨rfl, ?_⟩
      rw [alookup_mergeA]
      rfl
    · intro hn
      subst hn
      rfl
    · intro hn
      subst hn
      unfold upd_inc
      dsimp only
      rw [if_pos rfl]

/-- The incident list of the C9 witness. -/
def inc9 : Incident :=
  { id := 1, provider_key := "P", code := "PLACEHOLDER", status := "open",
    summary := "s", details := [("note", .str "old"), ("k", .str "v")],
    opened_at := 0, updated_at := 0 }

def s9 : OpsState := { initState with incidents := [inc9] }

/-- Witness for C9: updating an unknown id 2 returns `false` with the state
unchanged; updating id 1 to resolved with note "done" returns `true`, sets
the status and timestamp, and overwrites the old note. -/
theorem C9_update_incident_witness :
    update_incident s9 2 "resolved" (some "done") 5 = (false, s9) ∧
    update_incident s9 1 "resolved" (some "done") 5 =
      (true, { s9 with incidents := [upd_inc inc9 "resolved" (some "done") 5] }) ∧
    (upd_inc inc9 "resolved" (some "done") 5).status = "resolved" ∧
    (upd_inc inc9 "resolved" (some "done") 5).updated_at = 5 ∧
    alookup (upd_inc inc9 "resolved" (some "done") 5).details "note" =
      some (.str "done") := by
  have h1 := (C9_update_incident s9 2 "resolved" (some "done") 5).1 (by decide)
  have h2 := (C9_update_incident s9 1 "resolved" (some "done") 5).2 [] inc9 [] rfl
    (by intro j hj; exact absurd hj (List.not_mem_nil j)) rfl
  exact ⟨h1, h2.1, h2.2.1, h2.2.2.1, (h2.2.2.2.1 "done" rfl (by decide)).2⟩


/-! ## Counting open/acknowledged incidents per (provider, code) pair -/

/-- The number of incidents for `(pk, c)` whose status is open or
acknowledged. -/
def countOpenAck (incs : List Incident) (pk c : String) : Nat :=
  incs.countP (fun i => isOpenMatch i pk c)

/-- The deduplication invariant: at most one open/acknowledged incident per
`(provider, code)` pair. -/
def IncInv (s : OpsState) : Prop :=
  ∀ pk c, countOpenAck s.incidents pk c ≤ 1

theorem incInv_of_eq {s' s : OpsState} (h : s'.incidents = s.incidents)
    (hi : IncInv s) : IncInv s' := by
  intro pk c
  rw [show countOpenAck s'.incidents pk c = countOpenAck s.incidents pk c from by rw [h]]
  exact hi pk c

theorem countOpenAck_nil (pk c : String) : countOpenAck [] pk c = 0 := rfl

theorem countOpenAck_cons (inc : Incident) (incs : List Incident) (pk c : String) :
    countOpenAck (inc :: incs) pk c =
      countOpenAck incs pk c + (if isOpenMatch inc pk c then 1 else 0) := by
  unfold countOpenAck
  rw [List.countP_cons]

theorem countOpenAck_append (l₁ l₂ : List Incident) (pk c : String) :
    countOpenAck (l₁ ++ l₂) pk c = countOpenAck l₁ pk c + countOpenAck l₂ pk c := by
  unfold countOpenAck
  rw [List.countP_append]

theorem find_open_none_iff (pk c : String) :
    ∀ incs : List Incident,
      find_open_incident incs pk c = none ↔ countOpenAck incs pk c = 0 := by
  intro incs
  induction incs with
  | nil => simp [find_open_incident, countOpenAck_nil]
  | cons inc rest ih =>
      unfold find_open_incident
      rw [countOpenAck_cons]
      by_cases hm : isOpenMatch inc pk c = true
      · simp [hm]
      · have hm' : isOpenMatch inc pk c = false := by
          cases hmm : isOpenMatch inc pk c
          · rfl
          · exact absurd hmm hm
        simp only [hm', Bool.false_eq_true, if_false]
        simpa using ih

/-- `update_open_incident` never changes any `(provider, code, status)`
triple, hence no open/acknowledged count for any pair. -/
theorem countOpenAck_update_open (pk c : String) (d : AList JVal) (now : Int)
    (pk' c' : String) :
    ∀ incs : List Incident,
      countOpenAck (update_open_incident incs pk c d now) pk' c' =
        countOpenAck incs pk' c' := by
  intro incs
  induction incs with
  | nil => rfl
  | cons inc rest ih =>
      unfold update_open_incident
      by_cases hm : isOpenMatch inc pk c = true
      · rw [if_pos hm, countOpenAck_cons, countOpenAck_cons]
        rfl
      · rw [if_neg hm, countOpenAck_cons, countOpenAck_cons, ih]

theorem open_or_update_count_other (s : OpsState) (pk c sm : String)
    (d : AList JVal) (now : Int) (pk' c' : String) (h : ¬ (pk' = pk ∧ c' = c)) :
    countOpenAck (open_or_update_incident s pk c sm d now).2.incidents pk' c' =
      countOpenAck s.incidents pk' c' := by
  unfold open_or_update_incident
  cases hf : find_open_incident s.incidents pk c with
  | some inc =>
      dsimp only
      rw [append_run_incidents, countOpenAck_update_open]
  | none =>
      dsimp only
      rw [append_run_incidents, countOpenAck_append, countOpenAck_cons,
        countOpenAck_nil]
      have hm : isOpenMatch
          { id := new_incident_id s.incidents, provider_key := pk, code := c,
            status := "open", summary := sm, details := d, opened_at := now,
            updated_at := now } pk' c' = false := by
        unfold isOpenMatch
        apply decide_eq_false
        intro hand
        exact h ⟨hand.1.symm, hand.2.1.symm⟩
      simp only [hm, Bool.false_eq_true, if_false]
      omega

theorem open_or_update_count_same_zero (s : OpsState) (pk c sm : String)
    (d : AList JVal) (now : Int) (h : countOpenAck s.incidents pk c = 0) :
    countOpenAck (open_or_update_incident s pk c sm d now).2.incidents pk c = 1 := by
  unfold open_or_update_incident
  rw [(find_open_none_iff pk c s.incidents).mpr h]
  dsimp only
  rw [append_run_incidents, countOpenAck_append, countOpenAck_cons,
    countOpenAck_nil, h]
  have hm : isOpenMatch
      { id := new_incident_id s.incidents, provider_key := pk, code := c,
        status := "open", summary := sm, details := d, opened_at := now,
        updated_at := now } pk c = true := by
    unfold isOpenMatch
    apply decide_eq_true
    exact ⟨rfl, rfl, Or.inl rfl⟩
  simp only [hm, if_true]

theorem open_or_update_count_same_pos (s : OpsState) (pk c sm : String)
    (d : AList JVal) (now : Int) (h : ¬ countOpenAck s.incidents pk c = 0) :
    countOpenAck (open_or_update_incident s pk c sm d now).2.incidents pk c =
      countOpenAck s.incidents pk c := by
  unfold open_or_update_incident
  cases hf : find_open_incident s.incidents pk c with
  | some inc =>
      dsimp only
      rw [append_run_incidents, countOpenAck_update_open]
  | none => exact absurd ((find_open_none_iff pk c s.incidents).mp hf) h

/-- `open_or_update_incident` keeps the dedup invariant. -/
theorem incInv_open_or_update (s : OpsState) (pk c sm : String) (d : AList JVal)
    (now : Int) (h : IncInv s) :
    IncInv (open_or_update_incident s pk c sm d now).2 := by
  intro pk' c'
  by_cases hpc : pk' = pk ∧ c' = c
  · rw [hpc.1, hpc.2]
    by_cases h0 : countOpenAck s.incidents pk c = 0
    · rw [open_or_update_count_same_zero s pk c sm d now h0]
    · rw [open_or_update_count_same_pos s pk c sm d now h0]
      exact h pk c
  · rw [open_or_update_count_other s pk c sm d now pk' c' hpc]
    exact h pk' c'

theorem incInv_open_error_incidents (key : String) (now : Int)
    (issues : List ValidationIssue) :
    ∀ p : OpsState × List Int, IncInv p.1 →
      IncInv (open_error_incidents key now issues p).1 := by
  unfold open_error_incidents
  induction issues with
  | nil => intro p hp; exact hp
  | cons i rest ih =>
      intro p hp
      rw [List.foldl_cons]
      apply ih
      by_cases hi : i.severity = "ERROR"
      · rw [if_pos hi]
        exact incInv_open_or_update p.1 key i.code i.message i.context now hp
      · rw [if_neg hi]
        exact hp

theorem open_error_count_preserved (key : String) (now : Int) (pk' c' : String)
    (issues : List ValidationIssue)
    (hcode : ∀ i ∈ issues, ¬ (pk' = key ∧ c' = i.code)) :
    ∀ p : OpsState × List Int,
      countOpenAck (open_error_incidents key now issues p).1.incidents pk' c' =
        countOpenAck p.1.incidents pk' c' := by
  unfold open_error_incidents
  induction issues with
  | nil => intro p; rfl
  | cons i rest ih =>
      intro p
      rw [List.foldl_cons]
      rw [ih (fun j hj => hcode j (List.mem_cons_of_mem _ hj))]
      by_cases hi : i.severity = "ERROR"
      · rw [if_pos hi]
        exact open_or_update_count_other p.1 key i.code i.message i.context now
          pk' c' (hcode i (List.mem_cons_self _ _))
      · rw [if_neg hi]


/-! ## The incident dedup invariant over reachable states (claim C2) -/

theorem incInv_ensure (s : OpsState) (k : String) (h : IncInv s) :
    IncInv (ensure_health s k).2 :=
  incInv_of_eq (ensure_health_frame s k).1 h

theorem incInv_refresh_step (fy : String) (now : Int)
    (only : Option (List String)) (acc : RefreshAcc) (kt : String × Tariff)
    (h : IncInv acc.st) : IncInv (refresh_step fy now only acc kt).st := by
  unfold refresh_step
  by_cases hskip : skipProvider only kt.1 = true
  · simp only [hskip, if_true]
    exact h
  · simp only [hskip, Bool.false_eq_true, if_false]
    apply incInv_of_eq (setSnap_incidents _ _ _ _)
    apply incInv_of_eq (put_health_incidents _ _)
    apply incInv_open_error_incidents
    by_cases hesc : NONCOMMUNICATION_THRESHOLD ≤
        (classify_health (ensure_health acc.st kt.1).1 kt.1 kt.2
          (getSnap (ensure_health acc.st kt.1).2 fy kt.1) now).failure_count
    · rw [if_pos hesc]
      apply incInv_open_or_update
      exact incInv_ensure _ _ h
    · rw [if_neg hesc]
      exact incInv_ensure _ _ h

theorem incInv_refresh (provs : AList Tariff) (only : Option (List String))
    (now : Int) (s : OpsState) (h : IncInv s) :
    IncInv (refresh_all_providers provs only now s).2 := by
  have hcore : IncInv (refresh_core provs only now s).st := by
    unfold refresh_core
    apply foldl_inv _ (fun acc : RefreshAcc => IncInv acc.st)
      (fun a x ha => incInv_refresh_step _ _ _ a x ha)
    exact incInv_of_eq (by simp) h
  unfold refresh_all_providers
  dsimp only
  exact incInv_of_eq (by rw [append_run_incidents]; exact sweep_incidents provs now _) hcore

/-- Fields of `upd_inc`: provider key, code and id are untouched and status
is the supplied one. -/
theorem upd_inc_fields (inc : Incident) (st : String) (note : Option String)
    (now : Int) :
    (upd_inc inc st note now).provider_key = inc.provider_key ∧
    (upd_inc inc st note now).code = inc.code ∧
    (upd_inc inc st note now).status = st ∧
    (upd_inc inc st note now).id = inc.id := by
  unfold upd_inc
  cases note with
  | none => exact ⟨rfl, rfl, rfl, rfl⟩
  | some n =>
      dsimp only
      by_cases hn : n = ""
      · rw [if_pos hn]
        exact ⟨rfl, rfl, rfl, rfl⟩
      · rw [if_neg hn]
        exact ⟨rfl, rfl, rfl, rfl⟩

/-- The forward-only guard: `update_incident` may write "open" or
"acknowledged" only onto an incident that is still open or acknowledged
(spec section 3: incident transitions only move forward). -/
def fwdOk (s : OpsState) : Op → Prop
  | .updateInc iid status _ _ =>
      (status = "open" ∨ status = "acknowledged") →
        ∀ inc ∈ s.incidents, inc.id = iid →
          (inc.status = "open" ∨ inc.status = "acknowledged")
  | _ => True

/-- Reachability when every `update_incident` call respects the forward-only
status discipline. -/
inductive ReachableFwd (provs : AList Tariff) : OpsState → Prop where
  | init : ReachableFwd provs initState
  | step : ∀ (s : OpsState) (op : Op), ReachableFwd provs s → fwdOk s op →
      ReachableFwd provs (applyOp provs s op)

theorem countOpenAck_update_incident_list (iid : Int) (st : String)
    (note : Option String) (now : Int) (pk c : String) :
    ∀ (incs l : List Incident), update_incident_list incs iid st note now = some l →
      ((st = "open" ∨ st = "acknowledged") → ∀ inc ∈ incs, inc.id = iid →
        (inc.status = "open" ∨ inc.status = "acknowledged")) →
      countOpenAck l pk c ≤ countOpenAck incs pk c := by
  intro incs
  induction incs with
  | nil => intro l hl _; exact absurd hl (by simp [update_incident_list])
  | cons inc rest ih =>
      intro l hl hg
      unfold update_incident_list at hl
      by_cases hid : inc.id = iid
      · rw [if_pos hid] at hl
        injection hl with hl
        subst hl
        rw [countOpenAck_cons, countOpenAck_cons]
        have hf := upd_inc_fields inc st note now
        by_cases hm : isOpenMatch (upd_inc inc st note now) pk c = true
        · have hm' : isOpenMatch inc pk c = true := by
            unfold isOpenMatch at hm ⊢
            have h3 := of_decide_eq_true hm
            apply decide_eq_true
            have hst : st = "open" ∨ st = "acknowledged" := by
              rcases h3.2.2 with h4 | h4
              · exact Or.inl (by rw [← hf.2.2.1]; exact h4)
              · exact Or.inr (by rw [← hf.2.2.1]; exact h4)
            have hone := hg hst inc (List.mem_cons_self _ _) hid
            refine ⟨by rw [← hf.1]; exact h3.1, by rw [← hf.2.1]; exact h3.2.1, hone⟩
          rw [hm, hm']
        · have hm2 : isOpenMatch (upd_inc inc st note now) pk c = false := by
            cases hmm : isOpenMatch (upd_inc inc st note now) pk c
            · rfl
            · exact absurd hmm hm
          rw [hm2]
          simp only [Bool.false_eq_true, if_false]
          omega
      · rw [if_neg hid] at hl
        cases hrest : update_incident_list rest iid st note now with
        | none => rw [hrest] at hl; exact absurd hl (by simp)
        | some rest' =>
            rw [hrest] at hl
            injection hl with hl
            subst hl
            rw [countOpenAck_cons, countOpenAck_cons]
            have := ih rest' hrest
              (fun hst j hj hjid => hg hst j (List.mem_cons_of_mem _ hj) hjid)
            omega

theorem incInv_applyOp_fwd (provs : AList Tariff) (s : OpsState) (op : Op)
    (hg : fwdOk s op) (h : IncInv s) : IncInv (applyOp provs s op) := by
  cases op with
  | refresh only now => exact incInv_refresh provs only now s h
  | mark pk success note now =>
      show IncInv (mark_provider_checked pk success note now s).2
      exact incInv_of_eq (mark_frame pk success note now s).1 h
  | updateInc iid status note now =>
      show IncInv (update_incident s iid status note now).2
      unfold update_incident
      cases hl : update_incident_list s.incidents iid status note now with
      | none => exact h
      | some l =>
          intro pk c
          dsimp only
          exact Nat.le_trans
            (countOpenAck_update_incident_list iid status note now pk c
              s.incidents l hl hg) (h pk c)
  | setSched e iv now =>
      exact incInv_of_eq (set_scheduler_frame e iv now s).2.1 h
  | maybeRun now =>
      show IncInv (maybe_run_scheduled_refresh provs now s).2
      unfold maybe_run_scheduled_refresh
      dsimp only
      cases hen : s.scheduler.enabled with
      | false =>
          simp only [hen, Bool.not_false, if_true]
          exact h
      | true =>
          simp only [hen, Bool.not_true, Bool.false_eq_true, if_false]
          cases hdue : s.scheduler.next_run_due_at with
          | none => exact h
          | some due =>
              dsimp only
              by_cases hd : due ≤ now
              · rw [if_pos hd]
                exact incInv_of_eq rfl (incInv_refresh provs none now s h)
              · rw [if_neg hd]
                exact h

theorem incInv_reachableFwd {provs : AList Tariff} {s : OpsState}
    (h : ReachableFwd provs s) : IncInv s := by
  induction h with
  | init =>
      intro pk c
      have h0 : countOpenAck initState.incidents pk c = 0 := rfl
      rw [h0]
      exact Nat.zero_le 1
  | step s op _ hg ih => exact incInv_applyOp_fwd provs s op hg ih

/-- The first open/acknowledged match decomposes the list, and
`update_open_incident` rewrites exactly that element. -/
theorem find_open_decomp (pk c : String) (d : AList JVal) (now : Int) :
    ∀ (incs : List Incident) (inc : Incident),
      find_open_incident incs pk c = some inc →
      ∃ pre post, incs = pre ++ inc :: post ∧
        (∀ j ∈ pre, isOpenMatch j pk c = false) ∧
        isOpenMatch inc pk c = true ∧
        update_open_incident incs pk c d now =
          pre ++ merged_incident inc d now :: post := by
  intro incs
  induction incs with
  | nil => intro inc h; exact absurd h (by simp [find_open_incident])
  | cons j rest ih =>
      intro inc h
      unfold find_open_incident at h
      by_cases hm : isOpenMatch j pk c = true
      · rw [if_pos hm] at h
        injection h with h
        subst h
        refine ⟨[], rest, rfl, by intro x hx; exact absurd hx (List.not_mem_nil x), hm, ?_⟩
        unfold update_open_incident
        rw [if_pos hm]
        rfl
      · rw [if_neg hm] at h
        obtain ⟨pre, post, hsp, hpre, hmm, hupd⟩ := ih inc h
        have hmf : isOpenMatch j pk c = false := by
          cases hj : isOpenMatch j pk c
          · rfl
          · exact absurd hj hm
        refine ⟨j :: pre, post, by rw [hsp]; rfl, ?_, hmm, ?_⟩
        · intro x hx
          rcases List.mem_cons.mp hx with h1 | h1
          · rw [h1]; exact hmf
          · exact hpre x h1
        · unfold update_open_incident
          rw [if_neg hm, hupd]
          rfl

theorem update_open_length (pk c : String) (d : AList JVal) (now : Int) :
    ∀ incs : List Incident,
      (update_open_incident incs pk c d now).length = incs.length := by
  intro incs
  induction incs with
  | nil => rfl
  | cons j rest ih =>
      unfold update_open_incident
      by_cases hm : isOpenMatch j pk c = true
      · rw [if_pos hm]
        rfl
      · rw [if_neg hm]
        simpa using ih

theorem getLast?_drop_concat {α : Type} (x : α) :
    ∀ (l : List α) (k : Nat), k ≤ l.length →
      ((l ++ [x]).drop k).getLast? = some x := by
  intro l
  induction l with
  | nil =>
      intro k hk
      have : k = 0 := Nat.le_zero.mp hk
      subst this
      rfl
  | cons a t ih =>
      intro k hk
      cases k with
      | zero => exact List.getLast?_concat _
      | succ k' =>
          rw [List.cons_append, List.drop_succ_cons]
          exact ih k' (Nat.le_of_succ_le_succ hk)

theorem append_run_getLast (s : OpsState) (now : Int) (e : String)
    (d : AList JVal) :
    (append_run s now e d).runs.getLast? = some { ts := now, event := e, details := d } := by
  unfold append_run
  dsimp only
  by_cases hlen : (s.runs ++ [({ ts := now, event := e, details := d } : RunLogEntry)]).length > 500
  · rw [if_pos hlen]
    apply getLast?_drop_concat
    rw [List.length_append]
    simp only [List.length_singleton]
    omega
  · rw [if_neg hlen]
    exact List.getLast?_concat _

/-- C2 (amended).  Over every state reachable with forward-only
`update_incident` statuses, at most one incident per `(provider, code)` pair
is open or acknowledged; and when `_open_or_update_incident` is called for a
pair that already has an open/acknowledged incident, it does not lengthen the
incident list, keeps every pair's open/acknowledged count, rewrites exactly
the found incident — merging the new details over the old (new keys
overwriting same-named old keys) and advancing `updated_at` to now — returns
the existing incident's id, and appends an `incident_update` run-log entry
rather than `incident_open`. -/
theorem C2_incident_dedup (provs : AList Tariff) (s : OpsState)
    (h : ReachableFwd provs s) :
    IncInv s ∧
    (∀ pk c sm d now inc, find_open_incident s.incidents pk c = some inc →
      (open_or_update_incident s pk c sm d now).1 = inc.id ∧
      (open_or_update_incident s pk c sm d now).2.incidents.length =
        s.incidents.length ∧
      (∀ pk' c', countOpenAck (open_or_update_incident s pk c sm d now).2.incidents pk' c' =
        countOpenAck s.incidents pk' c') ∧
      (∃ pre post, s.incidents = pre ++ inc :: post ∧
        (open_or_update_incident s pk c sm d now).2.incidents =
          pre ++ merged_incident inc d now :: post) ∧
      (merged_incident inc d now).updated_at = now ∧
      (merged_incident inc d now).details = mergeA inc.details d ∧
      (∀ key w, alookup d key = some w →
        alookup (merged_incident inc d now).details key = some w) ∧
      (∀ key, alookup d key = none →
        alookup (merged_incident inc d now).details key = alookup inc.details key) ∧
      (open_or_update_incident s pk c sm d now).2.runs.getLast? =
        some { ts := now, event := "incident_update",
               details := [("id", .num inc.id), ("provider_key", .str pk),
                           ("code", .str c)] }) := by
  refine ⟨incInv_reachableFwd h, ?_⟩
  intro pk c sm d now inc hf
  obtain ⟨pre, post, hsp, hpre, hm, hupd⟩ := find_open_decomp pk c d now s.incidents inc hf
  have hbody : open_or_update_incident s pk c sm d now =
      (inc.id, append_run
        { s with incidents := update_open_incident s.incidents pk c d now }
        now "incident_update"
        [("id", .num inc.id), ("provider_key", .str pk), ("code", .str c)]) := by
    unfold open_or_update_incident
    rw [hf]
  refine ⟨by rw [hbody], ?_, ?_, ⟨pre, post, hsp, ?_⟩, rfl, rfl, ?_, ?_, ?_⟩
  · rw [hbody, append_run_incidents]
    exact update_open_length pk c d now s.incidents
  · intro pk' c'
    rw [hbody, append_run_incidents]
    exact countOpenAck_update_open pk c d now pk' c' s.incidents
  · rw [hbody, append_run_incidents]
    exact hupd
  · intro key w hw
    rw [show (merged_incident inc d now).details = mergeA inc.details d from rfl,
      alookup_mergeA inc.details d key, hw]
  · intro key hw
    rw [show (merged_incident inc d now).details = mergeA inc.details d from rfl,
      alookup_mergeA inc.details d key, hw]
  · rw [hbody]
    exact append_run_getLast _ now "incident_update" _

/-- The C2 witness scenario: one refresh of a placeholder table opens one
incident; a second `_open_or_update_incident` call on the same pair then
deduplicates. -/
def sC2 : OpsState := applyOp tblC1 initState (.refresh none 0)

unseal Rat.add Rat.mul Rat.sub Rat.inv Rat.ofScientific in
/-- Witness for C2: the state after one refresh of the one-placeholder table
is fwd-reachable, satisfies the invariant, and a repeated open of
`("P", "PLACEHOLDER")` returns id 1, keeps the single incident and logs an
`incident_update` entry. -/
theorem C2_incident_dedup_witness :
    ReachableFwd tblC1 sC2 ∧ IncInv sC2 ∧
    (∃ inc, find_open_incident sC2.incidents "P" "PLACEHOLDER" = some inc ∧
      (open_or_update_incident sC2 "P" "PLACEHOLDER" "again" [("x", .str "y")] 9).1 = inc.id ∧
      (open_or_update_incident sC2 "P" "PLACEHOLDER" "again" [("x", .str "y")] 9).2.incidents.length =
        sC2.incidents.length) := by
  have hreach : ReachableFwd tblC1 sC2 :=
    ReachableFwd.step initState (.refresh none 0) ReachableFwd.init trivial
  have hmain := C2_incident_dedup tblC1 sC2 hreach
  have hf : find_open_incident sC2.incidents "P" "PLACEHOLDER" =
      some { id := 1, provider_key := "P", code := "PLACEHOLDER", status := "open",
             summary := "Provider has placeholder (zero) tariffs.", details := [],
             opened_at := 0, updated_at := 0 } := by decide
  have hded := hmain.2 "P" "PLACEHOLDER" "again" [("x", .str "y")] 9 _ hf
  exact ⟨hreach, hmain.1, ⟨_, hf, hded.1, hded.2.1⟩⟩

/-- The C2 counterexample trace: open, resolve, reopen-by-refresh, then
revive the resolved incident by an unguarded `update_incident` to "open". -/
def opsC2x : List Op :=
  [.refresh none 0, .updateInc 1 "resolved" none 1, .refresh none 2,
   .updateInc 1 "open" none 3]

def sC2x : OpsState := runOps tblC1 initState opsC2x

unseal Rat.add Rat.mul Rat.sub Rat.inv Rat.ofScientific in
/-- Counterexample to C2 as stated: a reachable state (under the claim's own
operation set, which includes `update_incident` with an arbitrary supplied
status) holding TWO open incidents for the pair `("P", "PLACEHOLDER")` — the
code never validates the supplied status, so a resolved incident can be set
back to "open" next to the fresh one. -/
theorem C2_incident_dedup_counterexample :
    Reachable tblC1 sC2x ∧ countOpenAck sC2x.incidents "P" "PLACEHOLDER" = 2 :=
  ⟨⟨opsC2x, rfl⟩, by decide⟩


/-! ## Per-key characterization of a refresh pass (claims C3, C5) -/

/-- The drift issue, if any, is a WARN with code DRIFT. -/
theorem compare_drift_some (prev : Option (AList JVal)) (cur : AList JVal)
    (i : ValidationIssue) (h : compare_drift prev cur = some i) :
    i.severity = "WARN" ∧ i.code = "DRIFT" := by
  unfold compare_drift at h
  cases prev with
  | none => exact absurd h (by simp)
  | some p =>
      dsimp only at h
      by_cases hnil : p = []
      · rw [if_pos hnil] at h
        exact absurd h (by simp)
      · rw [if_neg hnil] at h
        cases hp : getNum p "est160" with
        | none => rw [hp] at h; exact absurd h (by simp)
        | some ep =>
            cases hc : getNum cur "est160" with
            | none => rw [hp, hc] at h; exact absurd h (by simp)
            | some ec =>
                rw [hp, hc] at h
                dsimp only at h
                by_cases hpos : 0 < ep
                · rw [if_pos hpos] at h
                  by_cases hpct : DRIFT_ALERT_PCT ≤ |(ec - ep) / ep * 100|
                  · rw [if_pos hpct] at h
                    injection h with h
                    rw [← h]
                    exact ⟨rfl, rfl⟩
                  · rw [if_neg hpct] at h
                    exact absurd h (by simp)
                · rw [if_neg hpos] at h
                  exact absurd h (by simp)

/-- Whether the validator alone reports an ERROR for this tariff. -/
def validate_has_error (key : String) (t : Tariff) : Bool :=
  (validate_provider key t).any (fun i => i.severity = "ERROR")

/-- Drift issues are WARN, so the ERROR flag of a pass only depends on the
validator. -/
theorem issues_for_any_error (key : String) (t : Tariff)
    (prev : Option (AList JVal)) :
    (issues_for key t prev).any (fun i => i.severity = "ERROR") =
      validate_has_error key t := by
  unfold issues_for validate_has_error
  cases hd : compare_drift prev (snapshot_for_drift t) with
  | none => rfl
  | some di =>
      dsimp only
      rw [List.any_append]
      have hw : di.severity = "WARN" := (compare_drift_some _ _ _ hd).1
      simp [hw]

/-- The health record a refresh pass stores, freed of the (health-irrelevant)
previous snapshot. -/
def health_after (ph0 : ProviderHealth) (key : String) (t : Tariff)
    (now : Int) : ProviderHealth :=
  classify_health ph0 key t none now

theorem classify_health_prev_indep (ph0 : ProviderHealth) (key : String)
    (t : Tariff) (prev : Option (AList JVal)) (now : Int) :
    classify_health ph0 key t prev now = health_after ph0 key t now := by
  unfold health_after classify_health
  dsimp only
  rw [issues_for_any_error, issues_for_any_error]

theorem classify_health_fields (ph0 : ProviderHealth) (key : String)
    (t : Tariff) (prev : Option (AList JVal)) (now : Int) :
    (classify_health ph0 key t prev now).provider_key = ph0.provider_key ∧
    (classify_health ph0 key t prev now).last_checked = some now := by
  unfold classify_health
  dsimp only
  constructor <;>
  · repeat' split
    all_goals rfl

theorem wfprov_refresh_step (fy : String) (now : Int)
    (only : Option (List String)) (acc : RefreshAcc) (kt : String × Tariff)
    (h : WFprov acc.st) : WFprov (refresh_step fy now only acc kt).st := by
  unfold refresh_step
  by_cases hskip : skipProvider only kt.1 = true
  · simp only [hskip, if_true]
    exact h
  · simp only [hskip, Bool.false_eq_true, if_false]
    have hwfe := wfprov_ensure acc.st kt.1 h
    intro p hp
    rw [setSnap_providers] at hp
    by_cases hesc : NONCOMMUNICATION_THRESHOLD ≤
        (classify_health (ensure_health acc.st kt.1).1 kt.1 kt.2
          (getSnap (ensure_health acc.st kt.1).2 fy kt.1) now).failure_count
    · simp only [hesc, if_true] at hp
      rcases mem_setA hp with h1 | h1
      · simp [h1]
      · rw [(open_error_incidents_frame _ _ _ _).1,
          (open_or_update_frame _ _ _ _ _ _).1] at h1
        exact hwfe p h1
    · simp only [hesc, if_false] at hp
      rcases mem_setA hp with h1 | h1
      · simp [h1]
      · rw [(open_error_incidents_frame _ _ _ _).1] at h1
        exact hwfe p h1

theorem wfprov_refresh_core (provs : AList Tariff) (only : Option (List String))
    (now : Int) (s : OpsState) (h : WFprov s) :
    WFprov (refresh_core provs only now s).st := by
  unfold refresh_core
  apply foldl_inv _ (fun acc : RefreshAcc => WFprov acc.st)
    (fun a x ha => wfprov_refresh_step _ _ _ a x ha)
  intro p hp
  simp only [ensure_fy_snap_providers, append_run_providers] at hp
  exact h p hp

theorem wfprov_refresh (provs : AList Tariff) (only : Option (List String))
    (now : Int) (s : OpsState) (h : WFprov s) :
    WFprov (refresh_all_providers provs only now s).2 := by
  unfold refresh_all_providers
  dsimp only
  intro p hp
  simp only [append_run_providers] at hp
  exact wfprov_sweep_fold now _ _ (wfprov_refresh_core provs only now s h) p hp

theorem refresh_step_lookup_self (fy : String) (now : Int) (acc : RefreshAcc)
    (k : String) (t : Tariff) (hwf : WFprov acc.st) :
    alookup (refresh_step fy now none acc (k, t)).st.providers k =
      some (health_after (ensure_health acc.st k).1 k t now) := by
  have hkey := ensure_health_key acc.st k hwf
  unfold refresh_step
  rw [if_neg (by simp [skipProvider])]
  try dsimp only
  rw [setSnap_providers]
  rw [← classify_health_prev_indep (ensure_health acc.st k).1 k t
    (getSnap (ensure_health acc.st k).2 fy k) now]
  by_cases hesc : NONCOMMUNICATION_THRESHOLD ≤
      (classify_health (ensure_health acc.st k).1 k t
        (getSnap (ensure_health acc.st k).2 fy k) now).failure_count
  · simp only [hesc, if_true]
    apply put_health_lookup_at
    rw [(classify_health_fields _ _ _ _ _).1]
    exact hkey
  · simp only [hesc, if_false]
    apply put_health_lookup_at
    rw [(classify_health_fields _ _ _ _ _).1]
    exact hkey

theorem refresh_step_lookup_ne (fy : String) (now : Int)
    (only : Option (List String)) (acc : RefreshAcc) (kt : String × Tariff)
    (k : String) (hk : ¬ kt.1 = k) (hwf : WFprov acc.st) :
    alookup (refresh_step fy now only acc kt).st.providers k =
      alookup acc.st.providers k := by
  have hkey := ensure_health_key acc.st kt.1 hwf
  unfold refresh_step
  by_cases hskip : skipProvider only kt.1 = true
  · simp only [hskip, if_true]
  · simp only [hskip, Bool.false_eq_true, if_false]
    try dsimp only
    rw [setSnap_providers]
    have hne : (classify_health (ensure_health acc.st kt.1).1 kt.1 kt.2
        (getSnap (ensure_health acc.st kt.1).2 fy kt.1) now).provider_key ≠ k := by
      rw [(classify_health_fields _ _ _ _ _).1, hkey]
      exact hk
    by_cases hesc : NONCOMMUNICATION_THRESHOLD ≤
        (classify_health (ensure_health acc.st kt.1).1 kt.1 kt.2
          (getSnap (ensure_health acc.st kt.1).2 fy kt.1) now).failure_count
    · simp only [hesc, if_true]
      rw [put_health_lookup_ne _ _ _ hne,
        (open_error_incidents_frame _ _ _ _).1,
        (open_or_update_frame _ _ _ _ _ _).1]
      exact ensure_health_lookup_ne acc.st kt.1 k hk
    · simp only [hesc, if_false]
      rw [put_health_lookup_ne _ _ _ hne,
        (open_error_incidents_frame _ _ _ _).1]
      exact ensure_health_lookup_ne acc.st kt.1 k hk

theorem refresh_loop_lookup_ne (fy : String) (now : Int)
    (only : Option (List String)) :
    ∀ (provs : AList Tariff) (acc : RefreshAcc) (k : String),
      (∀ q ∈ provs, ¬ q.1 = k) → WFprov acc.st →
      alookup (provs.foldl (refresh_step fy now only) acc).st.providers k =
        alookup acc.st.providers k := by
  intro provs
  induction provs with
  | nil => intro acc k _ _; rfl
  | cons q rest ih =>
      intro acc k hq hwf
      rw [List.foldl_cons,
        ih (refresh_step fy now only acc q) k
          (fun x hx => hq x (List.mem_cons_of_mem _ hx))
          (wfprov_refresh_step fy now only acc q hwf)]
      exact refresh_step_lookup_ne fy now only acc q k
        (hq q (List.mem_cons_self _ _)) hwf

theorem refresh_loop_lookup (fy : String) (now : Int) :
    ∀ (provs : AList Tariff) (acc : RefreshAcc) (k : String) (t : Tariff),
      (provs.map Prod.fst).Nodup → (k, t) ∈ provs → WFprov acc.st →
      alookup (provs.foldl (refresh_step fy now none) acc).st.providers k =
        some (health_after ((alookup acc.st.providers k).getD { provider_key := k })
          k t now) := by
  intro provs
  induction provs with
  | nil => intro acc k t _ hk _; exact absurd hk (List.not_mem_nil _)
  | cons p rest ih =>
      intro acc k t hnd hk hwf
      have hnd' : ¬ p.1 ∈ rest.map Prod.fst ∧ (rest.map Prod.fst).Nodup := by
        rw [List.map_cons] at hnd
        exact List.nodup_cons.mp hnd
      rw [List.foldl_cons]
      by_cases hek : p.1 = k
      · have hpt : p = (k, t) := by
          rcases List.mem_cons.mp hk with h1 | h1
          · exact h1.symm
          · exfalso
            have hmem : k ∈ rest.map Prod.fst := List.mem_map.mpr ⟨(k, t), h1, rfl⟩
            rw [← hek] at hmem
            exact hnd'.1 hmem
        subst hpt
        have hnr : ∀ q ∈ rest, ¬ q.1 = k := by
          intro q hq he
          exact hnd'.1 (List.mem_map.mpr ⟨q, hq, he⟩)
        rw [refresh_loop_lookup_ne fy now none rest _ k hnr
          (wfprov_refresh_step fy now none acc _ hwf)]
        rw [refresh_step_lookup_self fy now acc k t hwf]
        rw [ensure_health_fst]
      · have hkr : (k, t) ∈ rest := by
          rcases List.mem_cons.mp hk with h1 | h1
          · exact absurd (congrArg Prod.fst h1).symm hek
          · exact h1
        rw [ih (refresh_step fy now none acc p) k t hnd'.2 hkr
          (wfprov_refresh_step fy now none acc p hwf)]
        rw [refresh_step_lookup_ne fy now none acc p k hek hwf]

/-! Snapshot tracking through the loop. -/

theorem getSnap_setSnap_self (s : OpsState) (fy k : String) (v : AList JVal) :
    getSnap (setSnap s fy k v) fy k = some v := by
  unfold getSnap setSnap
  dsimp only
  rw [alookup_setA_self]
  dsimp only [Option.getD]
  rw [alookup_setA_self]

theorem getSnap_setSnap_ne (s : OpsState) (fy k' k : String) (v : AList JVal)
    (h : ¬ k' = k) : getSnap (setSnap s fy k' v) fy k = getSnap s fy k := by
  unfold getSnap setSnap
  dsimp only
  rw [alookup_setA_self]
  dsimp only [Option.getD]
  rw [alookup_setA_ne _ _ _ _ h]

theorem getSnap_congr {s' s : OpsState} (h : s'.snapshots = s.snapshots)
    (fy k : String) : getSnap s' fy k = getSnap s fy k := by
  unfold getSnap
  rw [h]

theorem refresh_step_snap_self (fy : String) (now : Int) (acc : RefreshAcc)
    (k : String) (t : Tariff) :
    getSnap (refresh_step fy now none acc (k, t)).st fy k =
      some (snapshot_for_drift t) := by
  unfold refresh_step
  rw [if_neg (by simp [skipProvider])]
  try dsimp only
  exact getSnap_setSnap_self _ _ _ _

theorem refresh_step_snap_ne (fy : String) (now : Int)
    (only : Option (List String)) (acc : RefreshAcc) (kt : String × Tariff)
    (k : String) (hk : ¬ kt.1 = k) :
    getSnap (refresh_step fy now only acc kt).st fy k = getSnap acc.st fy k := by
  unfold refresh_step
  by_cases hskip : skipProvider only kt.1 = true
  · simp only [hskip, if_true]
  · simp only [hskip, Bool.false_eq_true, if_false]
    try dsimp only
    rw [getSnap_setSnap_ne _ _ _ _ _ hk]
    by_cases hesc : NONCOMMUNICATION_THRESHOLD ≤
        (classify_health (ensure_health acc.st kt.1).1 kt.1 kt.2
          (getSnap (ensure_health acc.st kt.1).2 fy kt.1) now).failure_count
    · simp only [hesc, if_true]
      exact getSnap_congr (by
        rw [put_health_snapshots, (open_error_incidents_frame _ _ _ _).2.2.1,
          (open_or_update_frame _ _ _ _ _ _).2.2.1,
          (ensure_health_frame _ _).2.2.2.1]) fy k
    · simp only [hesc, if_false]
      exact getSnap_congr (by
        rw [put_health_snapshots, (open_error_incidents_frame _ _ _ _).2.2.1,
          (ensure_health_frame _ _).2.2.2.1]) fy k

theorem refresh_loop_snap_ne (fy : String) (now : Int)
    (only : Option (List String)) :
    ∀ (provs : AList Tariff) (acc : RefreshAcc) (k : String),
      (∀ q ∈ provs, ¬ q.1 = k) →
      getSnap (provs.foldl (refresh_step fy now only) acc).st fy k =
        getSnap acc.st fy k := by
  intro provs
  induction provs with
  | nil => intro acc k _; rfl
  | cons q rest ih =>
      intro acc k hq
      rw [List.foldl_cons,
        ih (refresh_step fy now only acc q) k
          (fun x hx => hq x (List.mem_cons_of_mem _ hx))]
      exact refresh_step_snap_ne fy now only acc q k (hq q (List.mem_cons_self _ _))

theorem refresh_loop_snap (fy : String) (now : Int) :
    ∀ (provs : AList Tariff) (acc : RefreshAcc) (k : String) (t : Tariff),
      (provs.map Prod.fst).Nodup → (k, t) ∈ provs →
      getSnap (provs.foldl (refresh_step fy now none) acc).st fy k =
        some (snapshot_for_drift t) := by
  intro provs
  induction provs with
  | nil => intro acc k t _ hk; exact absurd hk (List.not_mem_nil _)
  | cons p rest ih =>
      intro acc k t hnd hk
      have hnd' : ¬ p.1 ∈ rest.map Prod.fst ∧ (rest.map Prod.fst).Nodup := by
        rw [List.map_cons] at hnd
        exact List.nodup_cons.mp hnd
      rw [List.foldl_cons]
      by_cases hek : p.1 = k
      · have hpt : p = (k, t) := by
          rcases List.mem_cons.mp hk with h1 | h1
          · exact h1.symm
          · exfalso
            have hmem : k ∈ rest.map Prod.fst := List.mem_map.mpr ⟨(k, t), h1, rfl⟩
            rw [← hek] at hmem
            exact hnd'.1 hmem
        subst hpt
        have hnr : ∀ q ∈ rest, ¬ q.1 = k := by
          intro q hq he
          exact hnd'.1 (List.mem_map.mpr ⟨q, hq, he⟩)
        rw [refresh_loop_snap_ne fy now none rest _ k hnr]
        exact refresh_step_snap_self fy now acc k t
      · have hkr : (k, t) ∈ rest := by
          rcases List.mem_cons.mp hk with h1 | h1
          · exact absurd (congrArg Prod.fst h1).symm hek
          · exact h1
        exact ih (refresh_step fy now none acc p) k t hnd'.2 hkr

/-- A record checked at `now` cannot be stale at `now`. -/
theorem sweep_one_fresh (ph : ProviderHealth) (now : Int)
    (h : ph.last_checked = some now) : sweep_one ph now = ph := by
  unfold sweep_one
  rw [h]
  dsimp only
  rw [if_neg]
  rintro ⟨h1, -⟩
  unfold ageDays at h1
  rw [sub_self, Int.zero_fdiv] at h1
  exact absurd h1 (by decide)

/-- What a full refresh (with `only = None`) stores for a provider of the
table: the classified health record, untouched by the freshness sweep since
its `last_checked` is the refresh timestamp. -/
theorem refresh_health (provs : AList Tariff) (s : OpsState) (now : Int)
    (k : String) (t : Tariff) (hwf : WFprov s)
    (hnd : (provs.map Prod.fst).Nodup) (hkt : (k, t) ∈ provs) :
    alookup (refresh_all_providers provs none now s).2.providers k =
      some (health_after (ensure_health s k).1 k t now) := by
  have hcorewf := wfprov_refresh_core provs none now s hwf
  have hcore : alookup (refresh_core provs none now s).st.providers k =
      some (health_after (ensure_health s k).1 k t now) := by
    unfold refresh_core
    rw [refresh_loop_lookup _ now provs _ k t hnd hkt (by
      intro p hp
      simp only [ensure_fy_snap_providers, append_run_providers] at hp
      exact hwf p hp)]
    rw [show alookup (ensure_fy_snap (append_run s now "refresh_start"
        [("only", onlyVal none)])
        (append_run s now "refresh_start" [("only", onlyVal none)]).meta_fy).providers k =
        alookup s.providers k from by
      rw [ensure_fy_snap_providers, append_run_providers]]
    rw [← ensure_health_fst]
  have hk' : k ∈ provs.map Prod.fst := List.mem_map.mpr ⟨(k, t), hkt, rfl⟩
  have hsweep := sweep_lookup provs now (refresh_core provs none now s).st k hnd hk' hcorewf
  rw [ensure_health_fst, hcore] at hsweep
  unfold refresh_all_providers
  dsimp only
  rw [append_run_providers]
  show alookup (apply_freshness_sla provs now (refresh_core provs none now s).st).providers k = _
  rw [hsweep]
  dsimp only [Option.getD]
  rw [sweep_one_fresh (health_after (ensure_health s k).1 k t now) now
    ((classify_health_fields _ _ _ _ _).2)]

/-- A full refresh stores the tariff's current snapshot under the state's
financial year for every provider of the table. -/
theorem refresh_snap (provs : AList Tariff) (s : OpsState) (now : Int)
    (k : String) (t : Tariff) (hnd : (provs.map Prod.fst).Nodup)
    (hkt : (k, t) ∈ provs) :
    getSnap (refresh_all_providers provs none now s).2 s.meta_fy k =
      some (snapshot_for_drift t) := by
  have hsn : (refresh_all_providers provs none now s).2.snapshots =
      (refresh_core provs none now s).st.snapshots := by
    unfold refresh_all_providers
    dsimp only
    rw [append_run_snapshots]
    exact sweep_snapshots provs now _
  rw [getSnap_congr hsn]
  have hfy : (append_run s now "refresh_start" [("only", onlyVal none)]).meta_fy
      = s.meta_fy := by simp
  unfold refresh_core
  dsimp only
  rw [hfy]
  exact refresh_loop_snap s.meta_fy now provs _ k t hnd hkt

/-! ## Classification outcomes of one pass (claims C3, C5) -/

/-- No code the validator can emit is `NON_COMMUNICATING`. -/
theorem validate_codes (key : String) (t : Tariff) :
    ∀ i ∈ validate_provider key t, ¬ i.code = "NON_COMMUNICATING" := by
  intro i hi
  unfold validate_provider at hi
  split at hi
  · rw [List.mem_singleton] at hi
    rw [hi]
    intro hc
    simp at hc
  · dsimp only at hi
    simp only [List.mem_append] at hi
    rcases hi with (((h1 | h1) | h1) | h1) <;>
    · split at h1
      · rw [List.mem_singleton] at h1
        rw [h1]
        intro hc
        simp at hc
      · exact absurd h1 (List.not_mem_nil i)

/-- No issue of a refresh pass carries the code `NON_COMMUNICATING`:
the validator's codes are fixed, and the drift code is `DRIFT`. -/
theorem issues_for_codes (key : String) (t : Tariff)
    (prev : Option (AList JVal)) :
    ∀ i ∈ issues_for key t prev, ¬ i.code = "NON_COMMUNICATING" := by
  intro i hi
  unfold issues_for at hi
  cases hd : compare_drift prev (snapshot_for_drift t) with
  | none =>
      rw [hd] at hi
      exact validate_codes key t i hi
  | some di =>
      rw [hd] at hi
      dsimp only at hi
      rw [List.mem_append] at hi
      rcases hi with h1 | h1
      · exact validate_codes key t i h1
      · rw [List.mem_singleton] at h1
        rw [h1]
        intro hc
        have hdc : di.code = "DRIFT" := (compare_drift_some _ _ _ hd).2
        rw [show ({ di with provider_key := key } : ValidationIssue).code = di.code
          from rfl, hdc] at hc
        exact absurd hc (by decide)

/-- A non-placeholder tariff with no validation ERROR classifies as OK with
the failure counter reset. -/
theorem classify_ok (ph0 : ProviderHealth) (key : String) (t : Tariff)
    (now : Int) (hp : is_placeholder t = false)
    (he : validate_has_error key t = false) :
    (health_after ph0 key t now).status = "OK" ∧
    (health_after ph0 key t now).failure_count = 0 := by
  unfold health_after classify_health
  dsimp only
  rw [issues_for_any_error, hp, he]
  rw [if_neg (show ¬ false = true from by decide),
    if_neg (show ¬ false = true from by decide)]
  try dsimp only
  rw [if_neg (show ¬ NONCOMMUNICATION_THRESHOLD ≤ 0 from by decide)]
  exact ⟨rfl, rfl⟩

/-- A non-placeholder tariff with a validation ERROR increments the failure
counter and classifies as ERROR, or NON_COMMUNICATING once the counter
reaches the escalation threshold. -/
theorem classify_error (ph0 : ProviderHealth) (key : String) (t : Tariff)
    (now : Int) (hp : is_placeholder t = false)
    (he : validate_has_error key t = true) :
    (health_after ph0 key t now).failure_count = ph0.failure_count + 1 ∧
    (health_after ph0 key t now).status =
      (if NONCOMMUNICATION_THRESHOLD ≤ ph0.failure_count + 1
       then "NON_COMMUNICATING" else "ERROR") := by
  unfold health_after classify_health
  dsimp only
  rw [issues_for_any_error, hp, he]
  rw [if_neg (show ¬ false = true from by decide),
    if_pos (show true = true from rfl)]
  try dsimp only
  by_cases hesc : NONCOMMUNICATION_THRESHOLD ≤ ph0.failure_count + 1
  · rw [if_pos hesc, if_pos hesc]
    exact ⟨rfl, rfl⟩
  · rw [if_neg hesc, if_neg hesc]
    exact ⟨rfl, rfl⟩

unseal Rat.add Rat.mul Rat.sub Rat.inv Rat.ofScientific in
/-- A snapshot compared against itself never raises a drift issue (0 %
change, or a non-positive benchmark estimate). -/
theorem compare_drift_self (t : Tariff) :
    compare_drift (some (snapshot_for_drift t)) (snapshot_for_drift t) = none := by
  unfold compare_drift
  dsimp only
  rw [if_neg (show ¬ snapshot_for_drift t = [] from by
    unfold snapshot_for_drift; simp)]
  rw [show getNum (snapshot_for_drift t) "est160" =
    some (calculate_bill t DRIFT_BENCHMARK_KL none) from rfl]
  dsimp only
  by_cases hpos : 0 < calculate_bill t DRIFT_BENCHMARK_KL none
  · rw [if_pos hpos]
    rw [if_neg (show ¬ DRIFT_ALERT_PCT ≤
        |(calculate_bill t DRIFT_BENCHMARK_KL none -
          calculate_bill t DRIFT_BENCHMARK_KL none) /
          calculate_bill t DRIFT_BENCHMARK_KL none * 100| from by
      rw [sub_self, zero_div, zero_mul, abs_zero]
      decide)]
  · rw [if_neg hpos]

/-! ## Counting NON_COMMUNICATING incidents through a refresh pass (claim C5) -/

/-- One loop step for a foreign provider does not change the open
`NON_COMMUNICATING` count of `k`. -/
theorem refresh_step_count_ne (fy : String) (now : Int)
    (only : Option (List String)) (acc : RefreshAcc) (kt : String × Tariff)
    (k : String) (hk : ¬ kt.1 = k) :
    countOpenAck (refresh_step fy now only acc kt).st.incidents k
        "NON_COMMUNICATING" =
      countOpenAck acc.st.incidents k "NON_COMMUNICATING" := by
  unfold refresh_step
  by_cases hskip : skipProvider only kt.1 = true
  · simp only [hskip, if_true]
  · simp only [hskip, Bool.false_eq_true, if_false]
    try dsimp only
    rw [setSnap_incidents, put_health_incidents]
    rw [open_error_count_preserved kt.1 now k "NON_COMMUNICATING" _
      (fun i _ hand => hk hand.1.symm) _]
    by_cases hesc : NONCOMMUNICATION_THRESHOLD ≤
        (classify_health (ensure_health acc.st kt.1).1 kt.1 kt.2
          (getSnap (ensure_health acc.st kt.1).2 fy kt.1) now).failure_count
    · simp only [hesc, if_true]
      rw [open_or_update_count_other _ _ _ _ _ _ _ _
        (fun hand => hk hand.1.symm)]
      rw [(ensure_health_frame acc.st kt.1).1]
    · simp only [hesc, if_false]
      rw [(ensure_health_frame acc.st kt.1).1]

/-- One loop step for provider `k` itself: one `NON_COMMUNICATING` incident
is opened exactly when the classified counter reaches the threshold while no
open one exists; otherwise the count is unchanged. -/
theorem refresh_step_count_self (fy : String) (now : Int) (acc : RefreshAcc)
    (k : String) (t : Tariff) :
    countOpenAck (refresh_step fy now none acc (k, t)).st.incidents k
        "NON_COMMUNICATING" =
      (if NONCOMMUNICATION_THRESHOLD ≤
          (health_after (ensure_health acc.st k).1 k t now).failure_count
       then (if countOpenAck acc.st.incidents k "NON_COMMUNICATING" = 0 then 1
             else countOpenAck acc.st.incidents k "NON_COMMUNICATING")
       else countOpenAck acc.st.incidents k "NON_COMMUNICATING") := by
  have hinc := (ensure_health_frame acc.st k).1
  unfold refresh_step
  rw [if_neg (by simp [skipProvider])]
  try dsimp only
  rw [setSnap_incidents, put_health_incidents]
  rw [open_error_count_preserved k now k "NON_COMMUNICATING" _
    (fun i hi hand => issues_for_codes k t _ i hi hand.2.symm) _]
  rw [classify_health_prev_indep]
  by_cases hesc : NONCOMMUNICATION_THRESHOLD ≤
      (health_after (ensure_health acc.st k).1 k t now).failure_count
  · rw [if_pos hesc, if_pos hesc]
    try dsimp only
    by_cases h0 : countOpenAck acc.st.incidents k "NON_COMMUNICATING" = 0
    · rw [if_pos h0]
      exact open_or_update_count_same_zero _ _ _ _ _ _ (by rw [hinc]; exact h0)
    · rw [if_neg h0]
      rw [open_or_update_count_same_pos _ _ _ _ _ _ (by rw [hinc]; exact h0)]
      rw [hinc]
  · rw [if_neg hesc, if_neg hesc]
    try dsimp only
    rw [hinc]

/-- The loop over providers none of which is `k` keeps `k`'s open
`NON_COMMUNICATING` count. -/
theorem refresh_loop_count_ne (fy : String) (now : Int)
    (only : Option (List String)) :
    ∀ (provs : AList Tariff) (acc : RefreshAcc) (k : String),
      (∀ q ∈ provs, ¬ q.1 = k) →
      countOpenAck (provs.foldl (refresh_step fy now only) acc).st.incidents k
          "NON_COMMUNICATING" =
        countOpenAck acc.st.incidents k "NON_COMMUNICATING" := by
  intro provs
  induction provs with
  | nil => intro acc k _; rfl
  | cons q rest ih =>
      intro acc k hq
      rw [List.foldl_cons,
        ih (refresh_step fy now only acc q) k
          (fun x hx => hq x (List.mem_cons_of_mem _ hx))]
      exact refresh_step_count_ne fy now only acc q k (hq q (List.mem_cons_self _ _))

/-- The open `NON_COMMUNICATING` count of `k` after the full per-provider
loop, as a function of `k`'s starting health record and count. -/
theorem refresh_loop_count (fy : String) (now : Int) :
    ∀ (provs : AList Tariff) (acc : RefreshAcc) (k : String) (t : Tariff),
      (provs.map Prod.fst).Nodup → (k, t) ∈ provs → WFprov acc.st →
      countOpenAck (provs.foldl (refresh_step fy now none) acc).st.incidents k
          "NON_COMMUNICATING" =
        (if NONCOMMUNICATION_THRESHOLD ≤
            (health_after ((alookup acc.st.providers k).getD { provider_key := k })
              k t now).failure_count
         then (if countOpenAck acc.st.incidents k "NON_COMMUNICATING" = 0 then 1
               else countOpenAck acc.st.incidents k "NON_COMMUNICATING")
         else countOpenAck acc.st.incidents k "NON_COMMUNICATING") := by
  intro provs
  induction provs with
  | nil => intro acc k t _ hk _; exact absurd hk (List.not_mem_nil _)
  | cons p rest ih =>
      intro acc k t hnd hk hwf
      have hnd' : ¬ p.1 ∈ rest.map Prod.fst ∧ (rest.map Prod.fst).Nodup := by
        rw [List.map_cons] at hnd
        exact List.nodup_cons.mp hnd
      rw [List.foldl_cons]
      by_cases hek : p.1 = k
      · have hpt : p = (k, t) := by
          rcases List.mem_cons.mp hk with h1 | h1
          · exact h1.symm
          · exfalso
            have hmem : k ∈ rest.map Prod.fst := List.mem_map.mpr ⟨(k, t), h1, rfl⟩
            rw [← hek] at hmem
            exact hnd'.1 hmem
        subst hpt
        have hnr : ∀ q ∈ rest, ¬ q.1 = k := by
          intro q hq he
          exact hnd'.1 (List.mem_map.mpr ⟨q, hq, he⟩)
        rw [refresh_loop_count_ne fy now none rest _ k hnr]
        rw [refresh_step_count_self fy now acc k t]
        rw [ensure_health_fst]
      · have hkr : (k, t) ∈ rest := by
          rcases List.mem_cons.mp hk with h1 | h1
          · exact absurd (congrArg Prod.fst h1).symm hek
          · exact h1
        rw [ih (refresh_step fy now none acc p) k t hnd'.2 hkr
          (wfprov_refresh_step fy now none acc p hwf)]
        rw [refresh_step_lookup_ne fy now none acc p k hek hwf,
          refresh_step_count_ne fy now none acc p k hek]

/-- The open `NON_COMMUNICATING` count of `k` after a full refresh: it grows
to one exactly when the classified counter reaches the threshold with no
open incident yet, and is otherwise unchanged. -/
theorem refresh_count (provs : AList Tariff) (s : OpsState) (now : Int)
    (k : String) (t : Tariff) (hwf : WFprov s)
    (hnd : (provs.map Prod.fst).Nodup) (hkt : (k, t) ∈ provs) :
    countOpenAck (refresh_all_providers provs none now s).2.incidents k
        "NON_COMMUNICATING" =
      (if NONCOMMUNICATION_THRESHOLD ≤
          (health_after (ensure_health s k).1 k t now).failure_count
       then (if countOpenAck s.incidents k "NON_COMMUNICATING" = 0 then 1
             else countOpenAck s.incidents k "NON_COMMUNICATING")
       else countOpenAck s.incidents k "NON_COMMUNICATING") := by
  have hinc : (refresh_all_providers provs none now s).2.incidents =
      (refresh_core provs none now s).st.incidents := by
    unfold refresh_all_providers
    dsimp only
    rw [append_run_incidents]
    exact sweep_incidents provs now _
  rw [hinc]
  unfold refresh_core
  rw [refresh_loop_count _ now provs _ k t hnd hkt (by
    intro p hp
    simp only [ensure_fy_snap_providers, append_run_providers] at hp
    exact hwf p hp)]
  rw [show alookup (ensure_fy_snap (append_run s now "refresh_start"
      [("only", onlyVal none)])
      (append_run s now "refresh_start" [("only", onlyVal none)]).meta_fy).providers k =
      alookup s.providers k from by
    rw [ensure_fy_snap_providers, append_run_providers]]
  rw [show (ensure_fy_snap (append_run s now "refresh_start"
      [("only", onlyVal none)])
      (append_run s now "refresh_start" [("only", onlyVal none)]).meta_fy).incidents =
      s.incidents from by
    rw [ensure_fy_snap_incidents, append_run_incidents]]
  rw [← ensure_health_fst]

/-- Everything one ERROR-classified refresh pass does to provider `k`:
counter up by one, ERROR (or escalated) status, and the incident count
formula. -/
theorem refresh_error_pass (provs : AList Tariff) (s : OpsState) (now : Int)
    (k : String) (t : Tariff) (hwf : WFprov s)
    (hnd : (provs.map Prod.fst).Nodup) (hkt : (k, t) ∈ provs)
    (hp : is_placeholder t = false) (he : validate_has_error k t = true)
    (n : Nat) (hfc : (ensure_health s k).1.failure_count = n)
    (cnt : Nat) (hcnt : countOpenAck s.incidents k "NON_COMMUNICATING" = cnt) :
    WFprov (refresh_all_providers provs none now s).2 ∧
    (ensure_health (refresh_all_providers provs none now s).2 k).1.failure_count
      = n + 1 ∧
    (ensure_health (refresh_all_providers provs none now s).2 k).1.status =
      (if NONCOMMUNICATION_THRESHOLD ≤ n + 1
       then "NON_COMMUNICATING" else "ERROR") ∧
    alookup (refresh_all_providers provs none now s).2.providers k =
      some (ensure_health (refresh_all_providers provs none now s).2 k).1 ∧
    countOpenAck (refresh_all_providers provs none now s).2.incidents k
        "NON_COMMUNICATING" =
      (if NONCOMMUNICATION_THRESHOLD ≤ n + 1
       then (if cnt = 0 then 1 else cnt) else cnt) := by
  have h1 := refresh_health provs s now k t hwf hnd hkt
  have hes : (ensure_health (refresh_all_providers provs none now s).2 k).1 =
      health_after (ensure_health s k).1 k t now := by
    rw [ensure_health_fst, h1]
    rfl
  refine ⟨wfprov_refresh provs none now s hwf, ?_, ?_, ?_, ?_⟩
  · rw [hes, (classify_error (ensure_health s k).1 k t now hp he).1, hfc]
  · rw [hes, (classify_error (ensure_health s k).1 k t now hp he).2, hfc]
  · rw [hes]
    exact h1
  · rw [refresh_count provs s now k t hwf hnd hkt,
      (classify_error (ensure_health s k).1 k t now hp he).1, hfc, hcnt]

/-! ## Claim C3: idempotence of the refresh on healthy providers -/

/-- C3: `refresh_all_providers` is idempotent with respect to healthy
providers: for a provider whose tariff is not a placeholder and passes
validation without an ERROR, both the first and an immediately repeated
refresh (no tariff change) store status OK with `failure_count = 0`, and the
drift comparison the second pass performs for that provider — the snapshot
written by the first pass against the identical current snapshot — yields no
DRIFT issue. -/
theorem C3_refresh_idempotent_on_ok (provs : AList Tariff) (s : OpsState)
    (now1 now2 : Int) (k : String) (t : Tariff)
    (hwf : WFprov s) (hnd : (provs.map Prod.fst).Nodup) (hkt : (k, t) ∈ provs)
    (hp : is_placeholder t = false) (he : validate_has_error k t = false) :
    ∃ ph1 ph2 : ProviderHealth,
      alookup (refresh_all_providers provs none now1 s).2.providers k = some ph1 ∧
      alookup (refresh_all_providers provs none now2
          (refresh_all_providers provs none now1 s).2).2.providers k = some ph2 ∧
      ph1.status = "OK" ∧ ph1.failure_count = 0 ∧
      ph2.status = "OK" ∧ ph2.failure_count = 0 ∧
      compare_drift (getSnap (refresh_all_providers provs none now1 s).2
          ((refresh_all_providers provs none now1 s).2.meta_fy) k)
        (snapshot_for_drift t) = none := by
  have h1 := refresh_health provs s now1 k t hwf hnd hkt
  have hwf1 := wfprov_refresh provs none now1 s hwf
  have h2 := refresh_health provs (refresh_all_providers provs none now1 s).2
    now2 k t hwf1 hnd hkt
  have hc1 := classify_ok (ensure_health s k).1 k t now1 hp he
  have hc2 := classify_ok
    (ensure_health (refresh_all_providers provs none now1 s).2 k).1 k t now2 hp he
  have hsn : getSnap (refresh_all_providers provs none now1 s).2
      ((refresh_all_providers provs none now1 s).2.meta_fy) k =
      some (snapshot_for_drift t) := by
    rw [refresh_meta_fy]
    exact refresh_snap provs s now1 k t hnd hkt
  refine ⟨_, _, h1, h2, hc1.1, hc1.2, hc2.1, hc2.2, ?_⟩
  rw [hsn]
  exact compare_drift_self t

/-- A healthy single-provider tariff table for the C3 witness. -/
def tG : Tariff :=
  { network_charge := 100, sewerage_charge := 80, usage_charges := (2, some 3),
    name := "Good", region := "X", notes := "" }

def tbl3 : AList Tariff := [("G", tG)]

unseal Rat.add Rat.mul Rat.sub Rat.inv Rat.ofScientific in
theorem C3_refresh_idempotent_on_ok_witness :
    ∃ ph1 ph2 : ProviderHealth,
      alookup (refresh_all_providers tbl3 none 0 initState).2.providers "G" = some ph1 ∧
      alookup (refresh_all_providers tbl3 none 10
          (refresh_all_providers tbl3 none 0 initState).2).2.providers "G" = some ph2 ∧
      ph1.status = "OK" ∧ ph1.failure_count = 0 ∧
      ph2.status = "OK" ∧ ph2.failure_count = 0 ∧
      compare_drift (getSnap (refresh_all_providers tbl3 none 0 initState).2
          ((refresh_all_providers tbl3 none 0 initState).2.meta_fy) "G")
        (snapshot_for_drift tG) = none :=
  C3_refresh_idempotent_on_ok tbl3 initState 0 10 "G" tG
    (by intro p hp; exact absurd hp (List.not_mem_nil p))
    (by decide) (List.mem_singleton.mpr rfl) (by decide) (by decide)

/-! ## Claim C5: escalation after three consecutive ERROR passes -/

/-- C5: a provider starting at `failure_count = 0` and with no open
`NON_COMMUNICATING` incident, whose tariff classifies as an ERROR outcome
(non-placeholder, a validation ERROR) on each of three consecutive
`refresh_all_providers` passes, ends with status NON_COMMUNICATING,
`failure_count = 3`, and exactly one open/acknowledged incident of code
`NON_COMMUNICATING` — not three. -/
theorem C5_noncomm_after_three_errors (provs : AList Tariff) (s : OpsState)
    (now1 now2 now3 : Int) (k : String) (t : Tariff)
    (hwf : WFprov s) (hnd : (provs.map Prod.fst).Nodup) (hkt : (k, t) ∈ provs)
    (hp : is_placeholder t = false) (he : validate_has_error k t = true)
    (hfc : (ensure_health s k).1.failure_count = 0)
    (hcnt : countOpenAck s.incidents k "NON_COMMUNICATING" = 0) :
    ∃ ph : ProviderHealth,
      alookup (refresh_all_providers provs none now3
          (refresh_all_providers provs none now2
            (refresh_all_providers provs none now1 s).2).2).2.providers k =
        some ph ∧
      ph.status = "NON_COMMUNICATING" ∧ ph.failure_count = 3 ∧
      countOpenAck (refresh_all_providers provs none now3
          (refresh_all_providers provs none now2
            (refresh_all_providers provs none now1 s).2).2).2.incidents k
        "NON_COMMUNICATING" = 1 := by
  obtain ⟨hwf1, hfc1, -, -, hcnt1⟩ :=
    refresh_error_pass provs s now1 k t hwf hnd hkt hp he 0 hfc 0 hcnt
  have hfc1' : (ensure_health (refresh_all_providers provs none now1 s).2
      k).1.failure_count = 1 := by
    rw [hfc1]
  have hcnt1' : countOpenAck (refresh_all_providers provs none now1 s).2.incidents
      k "NON_COMMUNICATING" = 0 := by
    rw [hcnt1]
    decide
  obtain ⟨hwf2, hfc2, -, -, hcnt2⟩ :=
    refresh_error_pass provs (refresh_all_providers provs none now1 s).2 now2
      k t hwf1 hnd hkt hp he 1 hfc1' 0 hcnt1'
  have hfc2' : (ensure_health (refresh_all_providers provs none now2
      (refresh_all_providers provs none now1 s).2).2 k).1.failure_count = 2 := by
    rw [hfc2]
  have hcnt2' : countOpenAck (refresh_all_providers provs none now2
      (refresh_all_providers provs none now1 s).2).2.incidents
      k "NON_COMMUNICATING" = 0 := by
    rw [hcnt2]
    decide
  obtain ⟨-, hfc3, hst3, hlk3, hcnt3⟩ :=
    refresh_error_pass provs (refresh_all_providers provs none now2
      (refresh_all_providers provs none now1 s).2).2 now3
      k t hwf2 hnd hkt hp he 2 hfc2' 0 hcnt2'
  refine ⟨_, hlk3, ?_, ?_, ?_⟩
  · rw [hst3]
    decide
  · rw [hfc3]
  · rw [hcnt3]
    decide

/-- A single-provider table whose tariff always fails validation with an
ERROR (negative fixed charge), for the C5 witness. -/
def tE : Tariff :=
  { network_charge := -5, sewerage_charge := 40, usage_charges := (2, none),
    name := "Err", region := "X", notes := "" }

def tblE : AList Tariff := [("E", tE)]

unseal Rat.add Rat.mul Rat.sub Rat.inv Rat.ofScientific in
theorem C5_noncomm_after_three_errors_witness :
    ∃ ph : ProviderHealth,
      alookup (refresh_all_providers tblE none 2
          (refresh_all_providers tblE none 1
            (refresh_all_providers tblE none 0 initState).2).2).2.providers "E" =
        some ph ∧
      ph.status = "NON_COMMUNICATING" ∧ ph.failure_count = 3 ∧
      countOpenAck (refresh_all_providers tblE none 2
          (refresh_all_providers tblE none 1
            (refresh_all_providers tblE none 0 initState).2).2).2.incidents "E"
        "NON_COMMUNICATING" = 1 :=
  C5_noncomm_after_three_errors tblE initState 0 1 2 "E" tE
    (by intro p hp; exact absurd hp (List.not_mem_nil p))
    (by decide) (List.mem_singleton.mpr rfl) (by decide) (by decide) rfl rfl

end WaterOps
